import Mathlib

/-!
Shallow embedding of the `ancestry` agent-based population simulator
(Go sources: the simulation engine in the unnamed main package).

Modelling conventions:
* Go slices become `List`; out-of-range reads, which would panic in Go,
  are modelled with `List.getD` and are never exercised by the theorems.
* Go `int` values that are non-negative throughout the program
  (ids, generations, counts) become `Nat`; quantities that can be
  negative (the statistics sentinels, `generationDiff` results) become `Int`.
* `float64` growth and mutation rates become `ℚ`; the only arithmetic the
  engine performs on them (`math.Ceil` of a product, comparison with zero)
  is exact at every value the claims exercise.
* The process-wide random source becomes an explicit oracle `RNG`: a stream
  of `Nat` draws (for `rand.Intn`, taken modulo the bound) and a stream of
  `Bool` draws (one per `rand.Float64()` comparison).  Theorems quantify
  over the oracle.
* `map[int]struct{}` becomes `Finset Nat`.
-/

namespace Ancestry

inductive Sex where
  | MALE
  | FEMALE
deriving DecidableEq

structure Agent where
  id : Nat
  generation : Nat
  sex : Sex
  mother : Nat
  father : Nat
  children : List Nat
  ancestorVec : List Nat
  ancestorSet : Finset Nat
  genes : List String
deriving DecidableEq

/-- Zero value of `Agent`, used as the `getD` default for slice reads. -/
def defaultAgent : Agent :=
  { id := 0, generation := 0, sex := Sex.MALE, mother := 0, father := 0,
    children := [], ancestorVec := [], ancestorSet := ∅, genes := [] }

structure Parameters where
  SimulationId : Nat
  NumAgents : Nat
  Generations : Nat
  GrowthRate : ℚ
  Monogamous : Bool
  MatingK : Nat
  NumGenes : Nat
  MutationRate : ℚ
  Compatible : Bool
  MateSelf : Bool
  MateSibling : Bool
  MateCousin : Bool
  MateSameSex : Bool
  Analysis : String
deriving DecidableEq

/-- Default parameter values (`NewParameters`). -/
def NewParameters : Parameters :=
  { SimulationId := 0, NumAgents := 2, Generations := 32,
    GrowthRate := 102 / 100, Monogamous := false, MatingK := 50,
    NumGenes := 10, MutationRate := 0, Compatible := false,
    MateSelf := false, MateSibling := false, MateCousin := false,
    MateSameSex := false, Analysis := "NCDGg" }

/-- Random oracle: `ints t` is the `t`-th `rand.Intn` draw (reduced modulo
the requested bound), `bools t` the outcome of the `t`-th `rand.Float64()`
comparison; `ti`/`tb` count the draws consumed so far. -/
structure RNG where
  ints : Nat → Nat
  bools : Nat → Bool
  ti : Nat
  tb : Nat

/-- `rand.Intn n` (Go panics for `n = 0`; call sites keep `n > 0`). -/
def RNG.intn (r : RNG) (n : Nat) : Nat × RNG :=
  (r.ints r.ti % n, { r with ti := r.ti + 1 })

/-- One `rand.Float64() < p` comparison. -/
def RNG.coin (r : RNG) : Bool × RNG :=
  (r.bools r.tb, { r with tb := r.tb + 1 })

/-- `isSibling` (current engine source): two agents sharing a mother or a
father id are siblings, guarded only by the first agent's generation. -/
def isSibling (a b : Agent) : Bool :=
  decide (0 < a.generation) &&
    (decide (a.mother = b.mother) || decide (a.father = b.father))

/-- `isCousin`: both agents at generation ≥ 2 and some pairing of their
parents satisfies the sibling predicate. -/
def isCousin (agents : List Agent) (a b : Agent) : Bool :=
  if a.generation < 2 || b.generation < 2 then false
  else
    let aMother := agents.getD a.mother defaultAgent
    let aFather := agents.getD a.father defaultAgent
    let bMother := agents.getD b.mother defaultAgent
    let bFather := agents.getD b.father defaultAgent
    isSibling aMother bMother || isSibling aMother bFather ||
      isSibling aFather bMother || isSibling aFather bFather

/-- Used to keep track of agents that are in the mating pool. -/
structure selectedAgent where
  id : Nat
  mated : Bool
deriving DecidableEq

/-- Zero value of `selectedAgent`. -/
def defaultSel : selectedAgent := { id := 0, mated := false }

/-- Used to keep track of agents that will reproduce. -/
structure matingPair where
  male : Nat
  female : Nat
deriving DecidableEq

/-- Zero value of `matingPair`. -/
def defaultPair : matingPair := { male := 0, female := 0 }

structure Simulation where
  id : Nat
  agents : List Agent
  currGen : List selectedAgent
  genBdrys : List Nat
  matingPairs : List matingPair
  params : Parameters
deriving DecidableEq

/-- `compatible`: the ordered short-circuit chain of mating rules. -/
def compatible (s : Simulation) (a b : Agent) : Bool :=
  if s.params.MateSelf == false && a.id == b.id then false
  else if s.params.MateSameSex == false && a.sex == b.sex then false
  else if s.params.MateSibling == false && isSibling a b then false
  else if s.params.MateCousin && isCousin s.agents a b then false
  else true

/-- Body of the `for _, parent := range parents` loop: enqueue a parent
id unless the membership set already holds it. -/
def addParent (pr : List Nat × Finset Nat) (p : Nat) : List Nat × Finset Nat :=
  if p ∈ pr.2 then pr else (pr.1 ++ [p], insert p pr.2)

/-- The frontier-expansion loop of `setAncestors`.  State: the pair of
discovery vector and membership set, the read cursor `sp` and the
running minimum `generation` (dead after the loop, kept for fidelity).
The loop is written with explicit fuel; `setAncestors` supplies
`2 * agents.length + 2`, which exceeds the largest possible number of
iterations (the vector only ever holds the query id plus pairwise
distinct parent ids of stored agents, so it never exceeds
`1 + 2 * agents.length` entries, and the cursor advances every step). -/
def setAncestorsLoop (agents : List Agent) :
    List Nat × Finset Nat → Nat → Nat → Nat → List Nat × Finset Nat
  | pr, _sp, _generation, 0 => pr
  | pr, sp, generation, fuel + 1 =>
    if sp < pr.1.length then
      if (agents.getD (pr.1.getD sp 0) defaultAgent).generation = 0 then pr
      else
        setAncestorsLoop agents
          (addParent (addParent pr (agents.getD (pr.1.getD sp 0) defaultAgent).mother)
            (agents.getD (pr.1.getD sp 0) defaultAgent).father)
          (sp + 1)
          (min (agents.getD (pr.1.getD sp 0) defaultAgent).generation generation) fuel
    else pr

/-- `setAncestors`: collect all ancestors of agent `id` by frontier
expansion, sort ascending, drop the final (largest) entry — the Go code
removes the query id this way — and store vector and set on the agent. -/
def setAncestors (agents : List Agent) (id : Nat) : List Agent :=
  let start := (agents.getD id defaultAgent).generation
  let res := setAncestorsLoop agents ([id], ∅) 0 start (2 * agents.length + 2)
  let sorted := List.insertionSort (· ≤ ·) res.1
  agents.set id
    { agents.getD id defaultAgent with
        ancestorVec := sorted.dropLast, ancestorSet := res.2 }

/-- `CountCommonElementsSortedArray`: two-pointer scan counting positions
where the heads coincide. -/
def CountCommonElementsSortedArray {α : Type} [LinearOrder α] :
    List α → List α → Nat
  | a :: as, b :: bs =>
    if a < b then CountCommonElementsSortedArray as (b :: bs)
    else if b < a then CountCommonElementsSortedArray (a :: as) bs
    else CountCommonElementsSortedArray as bs + 1
  | _, _ => 0
termination_by va vb => va.length + vb.length

/-- Backward scan of `generationDiff`: the input list is `a.ancestorVec`
reversed, so the first hit is the hit with the largest id; `0` is the
initial value of `generationFound`. -/
def genDiffFind (agents : List Agent) (bset : Finset Nat) : List Nat → Nat
  | [] => 0
  | idx :: rest =>
    if idx ∈ bset then (agents.getD idx defaultAgent).generation
    else genDiffFind agents bset rest

/-- `generationDiff`: generations back to the common ancestor of largest id. -/
def generationDiff (agents : List Agent) (a b : Agent) : Int :=
  (a.generation : Int) - (genDiffFind agents b.ancestorSet a.ancestorVec.reverse : Int)

/-- One founder agent of `NewSimulation` (sex drawn from the oracle). -/
def newFounder (i numGenes : Nat) (sexB : Bool) : Agent :=
  { id := i, generation := 0, sex := if sexB then Sex.MALE else Sex.FEMALE,
    mother := 0, father := 0, children := [], ancestorVec := [],
    ancestorSet := ∅,
    genes := (List.range numGenes).map (fun k => toString i ++ "-" ++ toString k) }

/-- The founder-creation loop of `NewSimulation`. -/
def mkFounders (numGenes : Nat) : Nat → Nat → RNG → List Agent × RNG
  | _i, 0, r => ([], r)
  | i, n + 1, r =>
    let c := r.coin
    let rest := mkFounders numGenes (i + 1) n c.2
    (newFounder i numGenes c.1 :: rest.1, rest.2)

/-- `NewSimulation`: founders, initial generation boundary, initial pool. -/
def NewSimulation (parameters : Parameters) (r : RNG) : Simulation × RNG :=
  let f := mkFounders parameters.NumGenes 0 parameters.NumAgents r
  ({ id := parameters.SimulationId, agents := f.1,
     currGen := (List.range f.1.length).map (fun i => { id := i, mated := false }),
     genBdrys := [f.1.length], matingPairs := [], params := parameters }, f.2)

/-- `setCurrGen`: refill the pool with the agents of generation `gen`. -/
def setCurrGen (s : Simulation) (gen : Nat) : Simulation :=
  if s.genBdrys.length ≤ gen then { s with currGen := [] }
  else
    let start := if gen = 0 then 0 else s.genBdrys.getD (gen - 1) 0
    let stop := s.genBdrys.getD gen 0
    let cg := ((s.agents.drop start).take (stop - start)).map
      (fun a => { id := a.id, mated := false : selectedAgent })
    { s with currGen := cg }

/-- The index loop of `setAncestorsGen`, structurally recursive on the
number of remaining indices. -/
def setAncestorsRangeAux : Nat → List Agent → Nat → List Agent
  | 0, agents, _i => agents
  | n + 1, agents, i => setAncestorsRangeAux n (setAncestors agents i) (i + 1)

/-- The index loop of `setAncestorsGen` (`for i := start; i < stop; i++`). -/
def setAncestorsRange (agents : List Agent) (i stop : Nat) : List Agent :=
  setAncestorsRangeAux (stop - i) agents i

/-- `setAncestorsGen`: resolve ancestors for every agent of generation `gen`. -/
def setAncestorsGen (s : Simulation) (gen : Nat) : Simulation :=
  { s with agents :=
      setAncestorsRange s.agents (s.genBdrys.getD (gen - 1) 0) (s.genBdrys.getD gen 0) }

/-- `makePair`: orient a pair as (male id, female id). -/
def makePair (agentA agentB : Agent) : matingPair :=
  if agentA.sex == Sex.MALE then { male := agentA.id, female := agentB.id }
  else { male := agentB.id, female := agentA.id }

/-- Inner window scan of `pairAgents`, structurally recursive on the
remaining window size (`rem` counts down from `hi - j`). -/
def pairScanAux (agentA : Agent) (i : Nat) : Nat → Simulation → Nat → Simulation
  | 0, s, _j => s
  | rem + 1, s, j =>
    if (s.currGen.getD j defaultSel).mated then pairScanAux agentA i rem s (j + 1)
    else
      let agentB := s.agents.getD (s.currGen.getD j defaultSel).id defaultAgent
      if compatible s agentA agentB then
        { s with
            matingPairs := s.matingPairs ++ [makePair agentA agentB],
            currGen :=
              ((s.currGen.set i { s.currGen.getD i defaultSel with mated := true }).set j
                { s.currGen.getD j defaultSel with mated := true }) }
      else pairScanAux agentA i rem s (j + 1)

/-- Inner window scan of `pairAgents`: indices `j` with `i < j < hi`. -/
def pairScan (s : Simulation) (agentA : Agent) (i j hi : Nat) : Simulation :=
  pairScanAux agentA i (hi - j) s j

/-- Outer loop of `pairAgents`, structurally recursive on the remaining
pool indices; the snapshot bound `n` is the pool length, constant during
the loop (neither branch changes `currGen`'s length). -/
def pairAgentsLoopAux : Nat → Simulation → Nat → Simulation
  | 0, s, _i => s
  | rem + 1, s, i =>
    if (s.currGen.getD i defaultSel).mated then pairAgentsLoopAux rem s (i + 1)
    else
      let agentA := s.agents.getD (s.currGen.getD i defaultSel).id defaultAgent
      let hi := min s.currGen.length (i + s.params.MatingK)
      pairAgentsLoopAux rem (pairScan s agentA i (i + 1) hi) (i + 1)

/-- Outer loop of `pairAgents`. -/
def pairAgentsLoop (s : Simulation) (i n : Nat) : Simulation :=
  pairAgentsLoopAux (n - i) s i

/-- `pairAgents`: greedy windowed matching over the shuffled pool. -/
def pairAgents (s : Simulation) : Simulation :=
  pairAgentsLoop { s with matingPairs := [] } 0 s.currGen.length

/-- The gene-inheritance loop of `newChild`; one coin per gene picks the
father's or the mother's label, a further coin (consumed only when the
mutation rate is positive, mirroring Go's short-circuit) appends a
mutation mark. -/
def inheritLoop (fGenes mGenes : List String) (mutationRate : ℚ) :
    Nat → Nat → RNG → List String × RNG
  | _i, 0, r => ([], r)
  | i, n + 1, r =>
    let c := r.coin
    let g0 := if c.1 then fGenes.getD i "" else mGenes.getD i ""
    let step : String × RNG :=
      if 0 < mutationRate then
        let m := c.2.coin
        (if m.1 then g0 ++ "\x60" else g0, m.2)
      else (g0, c.2)
    let rest := inheritLoop fGenes mGenes mutationRate (i + 1) n step.2
    (step.1 :: rest.1, rest.2)

/-- Append a child id to the `children` list of the agent stored at `pid`. -/
def appendChildTo (agents : List Agent) (pid cid : Nat) : List Agent :=
  agents.set pid
    { agents.getD pid defaultAgent with
        children := (agents.getD pid defaultAgent).children ++ [cid] }

/-- `newChild`: create one offspring of `father` and `mother`, append it
to the arena and register it with both parents. -/
def newChild (agents : List Agent) (father mother numGenes generation : Nat)
    (mutationRate : ℚ) (r : RNG) : List Agent × RNG :=
  let c := r.coin
  let sex := if c.1 then Sex.MALE else Sex.FEMALE
  let g := inheritLoop (agents.getD father defaultAgent).genes
    (agents.getD mother defaultAgent).genes mutationRate 0 numGenes c.2
  let agent : Agent :=
    { id := agents.length, generation := generation, sex := sex,
      mother := mother, father := father, children := [], ancestorVec := [],
      ancestorSet := ∅, genes := g.1 }
  let agents1 := appendChildTo (agents ++ [agent]) father agent.id
  (appendChildTo agents1 mother agent.id, g.2)

/-- Offspring-iteration count: `int(math.Ceil(growthRate * float64(n)))`.
The float arithmetic is modelled exactly over ℚ; the expression is
written on the rational's numerator and denominator so that it evaluates
by kernel reduction — `iterationsFor_eq_ceil` below proves it equal to
`⌈rate * n⌉` (clamped at zero like Go's `for range` on a negative count). -/
def iterationsFor (rate : ℚ) (n : Nat) : Nat :=
  (-(-(rate.num * n) / (rate.den : Int))).toNat

/-- The offspring loop of `makeChildrenMonogamous`: each iteration draws a
pair from the pool with replacement. -/
def makeChildrenLoop (pairs : List matingPair) (numGenes generation : Nat)
    (mutationRate : ℚ) : Nat → List Agent → RNG → List Agent × RNG
  | 0, agents, r => (agents, r)
  | n + 1, agents, r =>
    let d := r.intn pairs.length
    let pair := pairs.getD d.1 defaultPair
    let a1 := newChild agents pair.male pair.female numGenes generation mutationRate d.2
    makeChildrenLoop pairs numGenes generation mutationRate n a1.1 a1.2

/-- `makeChildrenMonogamous`. -/
def makeChildrenMonogamous (s : Simulation) (generation : Nat) (r : RNG) :
    Simulation × RNG :=
  let iterations := iterationsFor s.params.GrowthRate s.currGen.length
  let res := makeChildrenLoop s.matingPairs s.params.NumGenes generation
    s.params.MutationRate iterations s.agents r
  ({ s with agents := res.1 }, res.2)

/-- `monogamousMating`: pair, fail on an empty pool, otherwise breed. -/
def monogamousMating (s : Simulation) (generation : Nat) (r : RNG) :
    Simulation × RNG × Option String :=
  let s1 := pairAgents s
  if s1.matingPairs.length = 0 then
    (s1, r, some (toString s1.id ++ ", Error: No mating pairs for generation " ++
      toString generation))
  else
    let res := makeChildrenMonogamous s1 generation r
    (res.1, res.2, none)

/-- The bounded second-parent retry loop of `nonMonogamousMating`,
structurally recursive on the remaining budget (`rem` counts down from
`matingK - k`, so `rem = 0` is exactly the loop guard `k < matingK`
failing). -/
def nonMonogSearchAux (s : Simulation) (i : Nat) :
    Nat → Nat → Bool → Nat → RNG → Nat × Bool × Nat × RNG
  | 0, j, compat, k, r => (j, compat, k, r)
  | rem + 1, j, compat, k, r =>
    if compat = false then
      let d := r.intn s.currGen.length
      let j1 := (s.currGen.getD d.1 defaultSel).id
      let c1 := compatible s (s.agents.getD i defaultAgent)
        (s.agents.getD j1 defaultAgent)
      nonMonogSearchAux s i rem j1 c1 (k + 1) d.2
    else (j, compat, k, r)

/-- The retry loop (`for ; !compat && k < matingK; k++`).  Returns the
final `(j, compat, k)` together with the oracle. -/
def nonMonogSearch (s : Simulation) (i : Nat)
    (j : Nat) (compat : Bool) (k matingK : Nat) (r : RNG) :
    Nat × Bool × Nat × RNG :=
  nonMonogSearchAux s i (matingK - k) j compat k r

/-- The offspring loop of `nonMonogamousMating`: draw a first parent, run
the retry search; when the search exhausted its budget (`k >= matingK`)
the iteration is skipped, otherwise a child of `i` and `j` is created. -/
def nonMonogLoop (generation : Nat) : Nat → Simulation → RNG → Simulation × RNG
  | 0, s, r => (s, r)
  | n + 1, s, r =>
    let d := r.intn s.currGen.length
    let i := (s.currGen.getD d.1 defaultSel).id
    let t := nonMonogSearch s i 0 false 0 s.params.MatingK d.2
    if s.params.MatingK ≤ t.2.2.1 then nonMonogLoop generation n s t.2.2.2
    else
      let a1 := newChild s.agents i t.1 s.params.NumGenes generation
        s.params.MutationRate t.2.2.2
      nonMonogLoop generation n { s with agents := a1.1 } a1.2

/-- `nonMonogamousMating`: never fails. -/
def nonMonogamousMating (s : Simulation) (generation : Nat) (r : RNG) :
    Simulation × RNG × Option String :=
  let iterations := iterationsFor s.params.GrowthRate s.currGen.length
  let res := nonMonogLoop generation iterations s r
  (res.1, res.2, none)

/-- The offspring loop of `anyMating`: two fresh parent draws per child,
no compatibility check. -/
def anyMatingLoop (cg : List selectedAgent) (numGenes generation : Nat)
    (mutationRate : ℚ) : Nat → List Agent → RNG → List Agent × RNG
  | 0, agents, r => (agents, r)
  | n + 1, agents, r =>
    let di := r.intn cg.length
    let i := (cg.getD di.1 defaultSel).id
    let dj := di.2.intn cg.length
    let j := (cg.getD dj.1 defaultSel).id
    let a1 := newChild agents i j numGenes generation mutationRate dj.2
    anyMatingLoop cg numGenes generation mutationRate n a1.1 a1.2

/-- `anyMating`: never fails. -/
def anyMating (s : Simulation) (generation : Nat) (r : RNG) :
    Simulation × RNG × Option String :=
  let iterations := iterationsFor s.params.GrowthRate s.currGen.length
  let res := anyMatingLoop s.currGen s.params.NumGenes generation
    s.params.MutationRate iterations s.agents r
  ({ s with agents := res.1 }, res.2, none)

/-- Swap two positions of the pool (the body of `rand.Shuffle`'s swaps). -/
def listSwap (l : List selectedAgent) (i j : Nat) : List selectedAgent :=
  (l.set i (l.getD j defaultSel)).set j (l.getD i defaultSel)

/-- Fisher–Yates loop of `rand.Shuffle`: index `i` runs downward to 1,
swapping position `i` with a drawn position `≤ i`. -/
def shuffleLoop : Nat → List selectedAgent → RNG → List selectedAgent × RNG
  | 0, l, r => (l, r)
  | i + 1, l, r =>
    let d := r.intn (i + 2)
    shuffleLoop i (listSwap l (i + 1) d.1) d.2

/-- `rand.Shuffle` over the pool. -/
def shuffleGo (l : List selectedAgent) (r : RNG) : List selectedAgent × RNG :=
  shuffleLoop (l.length - 1) l r

/-- `setPairFunc`: strategy dispatch from the two flags. -/
def pairFunc (s : Simulation) (generation : Nat) (r : RNG) :
    Simulation × RNG × Option String :=
  if s.params.Monogamous == false && s.params.Compatible == false then
    anyMating s generation r
  else if s.params.Monogamous then monogamousMating s generation r
  else nonMonogamousMating s generation r

/-- The generation loop of `Simulate`: step counter `i`, `rem` steps left.
On a strategy failure the error is returned with the state as the Go
caller still sees it (the in-place mutated simulation). -/
def simulateSteps : Simulation → RNG → Nat → Nat → Simulation × RNG × Option String
  | s, r, _i, 0 => (s, r, none)
  | s, r, i, rem + 1 =>
    if s.currGen.length < 2 then
      (s, r, some (toString s.id ++
        ", sim-eng-err, insufficient survivors for generation, " ++
        toString s.currGen.length ++ ", " ++ toString i))
    else
      let sh := shuffleGo s.currGen r
      let s1 := { s with currGen := sh.1 }
      let step := pairFunc s1 i sh.2
      match step.2.2 with
      | some e => (step.1, step.2.1, some e)
      | none =>
        let s3 := { step.1 with genBdrys := step.1.genBdrys ++ [step.1.agents.length] }
        simulateSteps (setCurrGen s3 i) step.2.1 (i + 1) rem

/-- `Simulate`: the simulation engine function. -/
def Simulate (s : Simulation) (r : RNG) : Simulation × RNG × Option String :=
  simulateSteps (setCurrGen s 0) r 1 s.params.Generations

/-! ## Analysis engine

The report functions print comma-delimited records; we model each record
by the exact integer data it computes (counts, totals and the min/max
folds with Go's `math.MaxInt`/`math.MinInt` sentinels).  The rounded
floating-point means and the "most frequent" entries of the gene report —
the latter depend on Go's randomized map-iteration order — are
presentation only and are not part of any claim. -/

def goMaxInt : Int := 9223372036854775807

def goMinInt : Int := -9223372036854775808

inductive StatRecord where
  | numAncestors (totAgents count : Nat) (total : Nat) (minA maxA : Int)
  | commonAncestors (minC maxC : Int) (total : Nat)
  | genDiffOnlyOneGen
  | genDiff (minD maxD total : Int) (count : Nat)
  | genes (generation numDistinctGenes numContributors : Nat)
deriving DecidableEq

/-- `reportNumAncestors`: ancestor-vector lengths over the last generation. -/
def reportNumAncestors (s : Simulation) : StatRecord :=
  let generation := (s.agents.getD (s.agents.length - 1) defaultAgent).generation
  let start := s.genBdrys.getD (generation - 1) 0
  let data := (s.agents.drop start).map (fun a => a.ancestorVec.length)
  let total := data.foldl (fun t x => t + x) 0
  let mn := data.foldl (fun m x => if (x : Int) < m then (x : Int) else m) goMaxInt
  let mx := data.foldl (fun m x => if m < (x : Int) then (x : Int) else m) goMinInt
  StatRecord.numAncestors s.agents.length data.length total mn mx

/-- Inner index loop of `reportCommonAncestors`, structurally recursive
on the number of remaining indices. -/
def commonInnerAux (s : Simulation) (a : Agent) :
    Nat → Nat → Int × Int × Nat → Int × Int × Nat
  | 0, _j, acc => acc
  | rem + 1, j, acc =>
    let c := CountCommonElementsSortedArray a.ancestorVec
      ((s.agents.getD j defaultAgent).ancestorVec)
    let mn := if (c : Int) < acc.1 then (c : Int) else acc.1
    let mx := if acc.2.1 < (c : Int) then (c : Int) else acc.2.1
    commonInnerAux s a rem (j + 1) (mn, mx, acc.2.2 + c)

/-- Inner index loop of `reportCommonAncestors`: `j` from `a.id + 1` up
to the arena length. -/
def commonInner (s : Simulation) (a : Agent) (j : Nat) (acc : Int × Int × Nat) :
    Int × Int × Nat :=
  commonInnerAux s a (s.agents.length - j) j acc

/-- `reportCommonAncestors`: pairwise shared-ancestor counts from the last
generation's start. -/
def reportCommonAncestors (s : Simulation) : StatRecord :=
  let generation := (s.agents.getD (s.agents.length - 1) defaultAgent).generation
  let start := s.genBdrys.getD (generation - 1) 0
  let outer := (s.agents.drop start).take (s.agents.length - 1 - start)
  let res := outer.foldl (fun acc a => commonInner s a (a.id + 1) acc)
    (goMaxInt, goMinInt, 0)
  StatRecord.commonAncestors res.1 res.2.1 res.2.2

/-- Inner downward loop of `reportGenDiff` (`j` from `a.id - 1` while
`j > 0`, breaking at the first agent outside the last generation). -/
def genDiffInner (agents : List Agent) (lastGen : Nat) (a : Agent) :
    Nat → Int × Int × Int → Int × Int × Int
  | 0, acc => acc
  | j + 1, (mn, mx, tot) =>
    let b := agents.getD (j + 1) defaultAgent
    if b.generation ≠ lastGen then (mn, mx, tot)
    else
      let d := generationDiff agents a b
      genDiffInner agents lastGen a j
        (if d < mn then d else mn, if mx < d then d else mx, tot + d)

/-- Outer downward loop of `reportGenDiff` (`i` from the arena end,
breaking at the first agent outside the last generation). -/
def genDiffOuter (agents : List Agent) (lastGen : Nat) :
    Nat → Int × Int × Int × Nat → Int × Int × Int × Nat
  | 0, (mn, mx, tot, count) =>
    let a := agents.getD 0 defaultAgent
    if a.generation ≠ lastGen then (mn, mx, tot, count)
    else
      let res := genDiffInner agents lastGen a (a.id - 1) (mn, mx, tot)
      (res.1, res.2.1, res.2.2, count + 1)
  | i + 1, (mn, mx, tot, count) =>
    let a := agents.getD (i + 1) defaultAgent
    if a.generation ≠ lastGen then (mn, mx, tot, count)
    else
      let res := genDiffInner agents lastGen a (a.id - 1) (mn, mx, tot)
      genDiffOuter agents lastGen i (res.1, res.2.1, res.2.2, count + 1)

/-- `reportGenDiff`; `max_` starts at `0` in this report, not `MinInt`. -/
def reportGenDiff (s : Simulation) : StatRecord :=
  let lastGen := (s.agents.getD (s.agents.length - 1) defaultAgent).generation
  if lastGen = 0 then StatRecord.genDiffOnlyOneGen
  else
    let res := genDiffOuter s.agents lastGen (s.agents.length - 1)
      (goMaxInt, 0, 0, 0)
    StatRecord.genDiff res.1 res.2.1 res.2.2.1 res.2.2.2

/-- The founder id encoded in a gene label (`strconv.Atoi` of the part
before the first dash). -/
def geneContributor (gene : String) : Option Nat :=
  ((gene.splitOn "-").headD "").toNat?

/-- `analyzeGenes`: fails on the first unparsable gene label, otherwise
tabulates genes; we record the two table sizes (the "most frequent"
selections iterate a Go map and are order-nondeterministic). -/
def analyzeGenes (s : Simulation) (agents : List Agent) :
    Except String StatRecord :=
  let allGenes := (agents.map (fun a => a.genes)).flatten
  if allGenes.all (fun g => (geneContributor g).isSome) then
    let contributors := allGenes.filterMap geneContributor
    Except.ok (StatRecord.genes (agents.headD defaultAgent).generation
      allGenes.dedup.length contributors.dedup.length)
  else
    Except.error (toString s.id ++
      ", rpt-genes-err, error converting gene components to int")

/-- The boundary loop of `reportGenes`. -/
def reportGenesLoop (s : Simulation) (lastGenOnly : Bool) :
    Nat → List Nat → Except String (List StatRecord)
  | _start, [] => Except.ok []
  | start, e :: rest =>
    if lastGenOnly == false || e == s.agents.length then
      match analyzeGenes s ((s.agents.drop start).take (e - start)) with
      | Except.error msg => Except.error msg
      | Except.ok r1 =>
        match reportGenesLoop s lastGenOnly e rest with
        | Except.error msg => Except.error msg
        | Except.ok rs => Except.ok (r1 :: rs)
    else reportGenesLoop s lastGenOnly e rest

/-- `reportGenes`. -/
def reportGenes (s : Simulation) (lastGenOnly : Bool) :
    Except String (List StatRecord) :=
  reportGenesLoop s lastGenOnly 0 s.genBdrys

/-- The statistics pipeline of `Analysis`, run on the ancestor-resolved
simulation: the selector letters N, C, D, G (with modifier g) choose the
reports; only the gene report can fail. -/
def analysisStats (s1 : Simulation) : List StatRecord × Option String :=
  let r1 := if s1.params.Analysis.contains 'N' then [reportNumAncestors s1] else []
  let r2 := if s1.params.Analysis.contains 'C' then [reportCommonAncestors s1] else []
  let r3 := if s1.params.Analysis.contains 'D' then [reportGenDiff s1] else []
  if s1.params.Analysis.contains 'G' then
    match reportGenes s1 (s1.params.Analysis.contains 'g') with
    | Except.error msg => (r1 ++ r2 ++ r3, some msg)
    | Except.ok gr => (r1 ++ r2 ++ r3 ++ gr, none)
  else (r1 ++ r2 ++ r3, none)

/-- `Analysis`: the two fatal entry checks, then ancestor resolution for
the last generation, then the selected statistics.  The result carries
the simulation as the caller sees it afterwards, the records computed,
and the error returned (if any). -/
def Analysis (s : Simulation) : Simulation × List StatRecord × Option String :=
  if s.agents.length = 0 then (s, [], some "No agents in simulation")
  else
    let generation := (s.agents.getD (s.agents.length - 1) defaultAgent).generation
    if generation = 0 then
      (s, [], some (toString s.id ++ ", analysis-err, only zero generation exists"))
    else
      let s1 := setAncestorsGen s generation
      (s1, analysisStats s1)

/-! ## A concrete arena

The 14-agent pedigree used by the repository's own test suite
(`setupSim`): two founders, three further generations, ids in
non-decreasing generation order, every non-founder's parents in the
immediately preceding generation. -/

/-- Build a bare agent from id, generation, sex, mother, father, children. -/
def mkAgent (i g : Nat) (sx : Sex) (m f : Nat) (cs : List Nat) : Agent :=
  { id := i, generation := g, sex := sx, mother := m, father := f,
    children := cs, ancestorVec := [], ancestorSet := ∅, genes := [] }

def testAgents : List Agent :=
  [ mkAgent 0 0 Sex.MALE 0 0 [2, 3, 4],
    mkAgent 1 0 Sex.MALE 0 0 [2, 3, 4],
    mkAgent 2 1 Sex.FEMALE 0 1 [],
    mkAgent 3 1 Sex.MALE 0 1 [5, 6, 7, 8],
    mkAgent 4 1 Sex.MALE 0 1 [5, 6, 7, 8],
    mkAgent 5 2 Sex.FEMALE 3 4 [9, 10],
    mkAgent 6 2 Sex.MALE 3 4 [11, 12, 13],
    mkAgent 7 2 Sex.FEMALE 3 4 [9, 10],
    mkAgent 8 2 Sex.MALE 3 4 [11, 12, 13],
    mkAgent 9 3 Sex.MALE 5 7 [],
    mkAgent 10 3 Sex.FEMALE 5 7 [],
    mkAgent 11 3 Sex.FEMALE 8 6 [],
    mkAgent 12 3 Sex.FEMALE 8 6 [],
    mkAgent 13 3 Sex.FEMALE 8 6 [] ]

/-- Compatibility toggles all at their defaults (everything disallowed),
non-monogamous compatible strategy, over the test arena. -/
def testParams : Parameters :=
  { SimulationId := 0, NumAgents := 14, Generations := 4, GrowthRate := 2,
    Monogamous := false, MatingK := 50, NumGenes := 0, MutationRate := 0,
    Compatible := true, MateSelf := false, MateSibling := false,
    MateCousin := false, MateSameSex := false, Analysis := "" }

def testSim : Simulation :=
  { id := 0, agents := testAgents,
    currGen := [⟨9, false⟩, ⟨10, false⟩, ⟨11, false⟩, ⟨12, false⟩, ⟨13, false⟩],
    genBdrys := [2, 5, 9, 14], matingPairs := [], params := testParams }

/-! ## Claims -/

/-- Claim C1.  Agents 9 and 11 of the test arena are cousins (both at
generation ≥ 2, their parents 5/7 and 8/6 include the sibling pairing
5–8), they pass the self, same-sex and sibling rules, yet with
cousin-mating disallowed (`MateCousin = false`, the default) `compatible`
accepts them, and with cousin-mating allowed (`MateCousin = true`) it
rejects them — the exact opposite of the claimed rule 4: the code guards
the cousin rejection with `MateCousin` instead of `MateCousin == false`,
contradicting its own flag documentation ("Agents can mate with cousins")
and the polarity of the other three rules. -/
theorem cousinRuleInverted :
    isCousin testAgents (testAgents.getD 9 defaultAgent)
        (testAgents.getD 11 defaultAgent) = true
    ∧ compatible { testSim with params := { testParams with MateCousin := false } }
        (testAgents.getD 9 defaultAgent) (testAgents.getD 11 defaultAgent) = true
    ∧ compatible { testSim with params := { testParams with MateCousin := true } }
        (testAgents.getD 9 defaultAgent) (testAgents.getD 11 defaultAgent) = false := by
  decide

/-- Claim C5, counterexample.  The generation-0 founder 0 and the
generation-1 agent 2 share mother id 0, so `isSibling` applied to
(agent 2, founder 0) returns `true` even though the second agent is at
generation 0 — the code only guards on the **first** argument's
generation, refuting "the sibling predicate is false for the pair
(y, x)" when x is at generation 0. -/
theorem sibling_gen0_second_arg :
    (mkAgent 0 0 Sex.MALE 0 0 []).generation = 0
    ∧ isSibling (mkAgent 2 1 Sex.FEMALE 0 1 []) (mkAgent 0 0 Sex.MALE 0 0 []) = true := by
  decide

/-- Claim C5, amended.  The sibling predicate holds exactly when the
**first** agent is at generation > 0 and the two share a mother id or a
father id; consequently a generation-0 agent is never a sibling as the
first argument, but (unlike the original claim) it can satisfy the
predicate as the second argument. -/
theorem isSibling_characterization (a b : Agent) :
    (isSibling a b = true ↔
      0 < a.generation ∧ (a.mother = b.mother ∨ a.father = b.father))
    ∧ (a.generation = 0 → isSibling a b = false) := by
  constructor
  · simp [isSibling]
  · intro h
    simp [isSibling, h]

/-- Witness for `isSibling_characterization` at a concrete input. -/
theorem isSibling_characterization_witness :
    isSibling (mkAgent 0 0 Sex.MALE 0 0 []) (mkAgent 2 1 Sex.FEMALE 0 1 []) = false :=
  (isSibling_characterization (mkAgent 0 0 Sex.MALE 0 0 [])
    (mkAgent 2 1 Sex.FEMALE 0 1 [])).2 rfl

/-- The scan returns 0 on an empty second list. -/
theorem countCommon_nil_right {α : Type} [LinearOrder α] (A : List α) :
    CountCommonElementsSortedArray A ([] : List α) = 0 := by
  cases A <;> simp [CountCommonElementsSortedArray]

/-- The two-pointer scan is symmetric (on arbitrary inputs). -/
theorem countCommon_symm {α : Type} [LinearOrder α] (A B : List α) :
    CountCommonElementsSortedArray A B = CountCommonElementsSortedArray B A := by
  induction A, B using CountCommonElementsSortedArray.induct with
  | case1 a as b bs hab ih =>
    simp [CountCommonElementsSortedArray, hab, not_lt_of_lt hab, ih]
  | case2 a as b bs hab hba ih =>
    simp [CountCommonElementsSortedArray, hab, hba, ih]
  | case3 a as b bs hab hba ih =>
    simp [CountCommonElementsSortedArray, hab, hba, ih]
  | case4 A B h =>
    cases A with
    | nil => simp [CountCommonElementsSortedArray, countCommon_nil_right]
    | cons a as =>
      cases B with
      | nil => simp [CountCommonElementsSortedArray, countCommon_nil_right]
      | cons b bs => exact (h a as b bs rfl rfl).elim

/-- On strictly ascending inputs the scan counts the elements of the
first list that also occur in the second. -/
theorem countCommon_eq_filter_length {α : Type} [LinearOrder α] :
    ∀ (A B : List α), A.Sorted (· < ·) → B.Sorted (· < ·) →
      CountCommonElementsSortedArray A B
        = (A.filter (fun x => decide (x ∈ B))).length := by
  intro A B
  induction A, B using CountCommonElementsSortedArray.induct with
  | case1 a as b bs hab ih =>
    intro hA hB
    have hmem : ¬(a = b ∨ a ∈ bs) := by
      rintro (rfl | h1)
      · exact lt_irrefl a hab
      · exact lt_asymm hab ((List.sorted_cons.mp hB).1 a h1)
    have h1 : CountCommonElementsSortedArray (a :: as) (b :: bs)
        = CountCommonElementsSortedArray as (b :: bs) := by
      simp [CountCommonElementsSortedArray, hab]
    rw [h1, ih (List.sorted_cons.mp hA).2 hB]
    simp [List.filter_cons, hmem]
  | case2 a as b bs hab hba ih =>
    intro hA hB
    have hx : ∀ x ∈ a :: as, (decide (x ∈ b :: bs)) = (decide (x ∈ bs)) := by
      intro x hxm
      have hbx : b < x := by
        rcases List.mem_cons.mp hxm with rfl | h1
        · exact hba
        · exact lt_trans hba ((List.sorted_cons.mp hA).1 x h1)
      have hne : x ≠ b := ne_of_gt hbx
      simp [List.mem_cons, hne]
    have h1 : CountCommonElementsSortedArray (a :: as) (b :: bs)
        = CountCommonElementsSortedArray (a :: as) bs := by
      simp [CountCommonElementsSortedArray, hab, hba]
    rw [h1, ih hA (List.sorted_cons.mp hB).2, List.filter_congr hx]
  | case3 a as b bs hab hba ih =>
    intro hA hB
    have hab' : a = b := le_antisymm (not_lt.mp hba) (not_lt.mp hab)
    have hx : ∀ x ∈ as, (decide (x = b) || decide (x ∈ bs)) = (decide (x ∈ bs)) := by
      intro x hxm
      have hbx : b < x := hab' ▸ (List.sorted_cons.mp hA).1 x hxm
      have hne : x ≠ b := ne_of_gt hbx
      simp [hne]
    have h1 : CountCommonElementsSortedArray (a :: as) (b :: bs)
        = CountCommonElementsSortedArray as bs + 1 := by
      simp [CountCommonElementsSortedArray, hab, hba]
    have hcond : a = b ∨ a ∈ bs := Or.inl hab'
    rw [h1, ih (List.sorted_cons.mp hA).2 (List.sorted_cons.mp hB).2]
    have hfc := List.filter_congr hx
    simp only [List.filter_cons, List.mem_cons] at *
    simp [hcond, hfc]
  | case4 A B h =>
    intro hA hB
    cases A with
    | nil => simp [CountCommonElementsSortedArray]
    | cons a as =>
      cases B with
      | nil => simp [countCommon_nil_right]
      | cons b bs => exact (h a as b bs rfl rfl).elim

/-- Claim C6.  On ascending, duplicate-free integer sequences (strictly
sorted lists) the two-pointer count equals the cardinality of the set
intersection of the two inputs, and the function is symmetric. -/
theorem countCommon_intersection {A B : List Int}
    (hA : A.Sorted (· < ·)) (hB : B.Sorted (· < ·)) :
    CountCommonElementsSortedArray A B = (A.toFinset ∩ B.toFinset).card
    ∧ CountCommonElementsSortedArray A B = CountCommonElementsSortedArray B A := by
  refine ⟨?_, countCommon_symm A B⟩
  rw [countCommon_eq_filter_length A B hA hB]
  have nodA : A.Nodup := hA.nodup
  have nodF : (A.filter (fun x => decide (x ∈ B))).Nodup := nodA.filter _
  rw [← List.toFinset_card_of_nodup nodF]
  congr 1
  ext x
  simp [List.mem_filter, Finset.mem_inter]

/-- Witness for `countCommon_intersection`: the first example of the
repository's own test suite. -/
theorem countCommon_intersection_witness :
    ([1, 2, 3, 5] : List Int).Sorted (· < ·)
    ∧ ([0, 2, 4] : List Int).Sorted (· < ·)
    ∧ (CountCommonElementsSortedArray ([1, 2, 3, 5] : List Int) [0, 2, 4]
        = ((([1, 2, 3, 5] : List Int).toFinset ∩ ([0, 2, 4] : List Int).toFinset)).card
      ∧ CountCommonElementsSortedArray ([1, 2, 3, 5] : List Int) [0, 2, 4]
        = CountCommonElementsSortedArray ([0, 2, 4] : List Int) [1, 2, 3, 5]) :=
  ⟨by decide, by decide, countCommon_intersection (by decide) (by decide)⟩


/-- Structural invariant of the frontier-expansion loop: the discovery
vector is the query id followed by the pairwise-distinct discovered
ancestors, all with ids below the query id, and the membership set holds
exactly the discovered ancestors. -/
def loopInv (id : Nat) (pr : List Nat × Finset Nat) : Prop :=
  ∃ rest, pr.1 = id :: rest ∧ rest.Nodup ∧ (∀ x ∈ rest, x < id)
    ∧ rest.toFinset = pr.2

theorem loopInv_addParent {id : Nat} {pr : List Nat × Finset Nat} {p : Nat}
    (h : loopInv id pr) (hp : p < id) : loopInv id (addParent pr p) := by
  obtain ⟨rest, hv, hn, hlt, hts⟩ := h
  by_cases hm : p ∈ pr.2
  · simpa [addParent, hm] using ⟨rest, hv, hn, hlt, hts⟩
  · have hpr : p ∉ rest := fun hc => hm (hts ▸ List.mem_toFinset.mpr hc)
    rw [addParent, if_neg hm]
    refine ⟨rest ++ [p], by simp [hv], ?_, ?_, ?_⟩
    · simp [List.nodup_append, hn, hpr]
    · intro x hx
      rcases List.mem_append.mp hx with h1 | h1
      · exact hlt x h1
      · simp only [List.mem_singleton] at h1
        exact h1 ▸ hp
    · ext x
      simp [← hts, or_comm]

theorem setAncestorsLoop_inv (agents : List Agent) (id : Nat)
    (Hpar : ∀ k, k < agents.length →
      (agents.getD k defaultAgent).generation ≠ 0 →
      (agents.getD k defaultAgent).mother < k ∧ (agents.getD k defaultAgent).father < k) :
    ∀ (fuel : Nat) (pr : List Nat × Finset Nat) (sp gen : Nat),
      loopInv id pr → loopInv id (setAncestorsLoop agents pr sp gen fuel) := by
  intro fuel
  induction fuel with
  | zero => intro pr sp gen h; simpa only [setAncestorsLoop] using h
  | succ n ih =>
    intro pr sp gen h
    by_cases hsp : sp < pr.1.length
    · by_cases hg : (agents.getD (pr.1.getD sp 0) defaultAgent).generation = 0
      · simpa only [setAncestorsLoop, hsp, hg, if_true, if_false, ite_true,
          ite_false, eq_self_iff_true] using h
      · have hcm : pr.1.getD sp 0 ∈ pr.1 := by
          rw [List.getD_eq_getElem _ _ hsp]
          exact List.getElem_mem hsp
        have hcid : pr.1.getD sp 0 ≤ id := by
          obtain ⟨rest, hv, _, hlt, _⟩ := h
          generalize hgx : pr.1.getD sp 0 = x at hcm ⊢
          rw [hv] at hcm
          rcases List.mem_cons.mp hcm with h1 | h1
          · exact le_of_eq h1
          · exact le_of_lt (hlt _ h1)
        have hclen : pr.1.getD sp 0 < agents.length := by
          by_contra hc
          refine hg ?_
          rw [List.getD_eq_default _ _ (not_lt.mp hc)]
          rfl
        have hpar := Hpar (pr.1.getD sp 0) hclen hg
        have h2 := loopInv_addParent (loopInv_addParent h
          (lt_of_lt_of_le hpar.1 hcid)) (lt_of_lt_of_le hpar.2 hcid)
        simp only [setAncestorsLoop, hsp, hg, if_true, if_false, ite_true, ite_false]
        exact ih _ _ _ h2
    · simpa only [setAncestorsLoop, hsp, if_false, ite_false] using h


theorem getLast_eq_of_max {l : List Nat} {id : Nat} (hs : l.Sorted (· < ·))
    (hne : l ≠ []) (hmem : id ∈ l) (hmax : ∀ x ∈ l, x ≤ id) :
    l.getLast hne = id := by
  have hd := List.dropLast_append_getLast hne
  have hle : l.getLast hne ≤ id := hmax _ (List.getLast_mem hne)
  rcases List.mem_append.mp (show id ∈ l.dropLast ++ [l.getLast hne] by rw [hd]; exact hmem)
    with h1 | h1
  · have hpw : List.Pairwise (· < ·) (l.dropLast ++ [l.getLast hne]) := by
      rw [hd]; exact hs
    have h2 := (List.pairwise_append.mp hpw).2.2 id h1 (l.getLast hne) (by simp)
    omega
  · simp only [List.mem_singleton] at h1
    omega

theorem setAncestors_spec (agents : List Agent) (id : Nat)
    (Hpar : ∀ k, k < agents.length →
      (agents.getD k defaultAgent).generation ≠ 0 →
      (agents.getD k defaultAgent).mother < k ∧ (agents.getD k defaultAgent).father < k) :
    ∃ vec set,
      setAncestors agents id = agents.set id
        { agents.getD id defaultAgent with ancestorVec := vec, ancestorSet := set }
      ∧ vec.Sorted (· < ·) ∧ id ∉ vec ∧ vec.toFinset = set
      ∧ vec.length = set.card ∧ (∀ x ∈ vec, x < id)
      ∧ (setAncestorsLoop agents ([id], ∅) 0
          ((agents.getD id defaultAgent).generation) (2 * agents.length + 2)).2 = set := by
  have hinv := setAncestorsLoop_inv agents id Hpar (2 * agents.length + 2) ([id], ∅) 0
    ((agents.getD id defaultAgent).generation) ⟨[], rfl, by simp, by simp, by simp⟩
  obtain ⟨rest, hv, hn, hlt, hts⟩ := hinv
  refine ⟨(List.insertionSort (· ≤ ·) (setAncestorsLoop agents ([id], ∅) 0
      ((agents.getD id defaultAgent).generation) (2 * agents.length + 2)).1).dropLast,
    (setAncestorsLoop agents ([id], ∅) 0
      ((agents.getD id defaultAgent).generation) (2 * agents.length + 2)).2,
    rfl, ?_⟩
  rw [hv, ← hts]
  have hid : id ∉ rest := fun hc => lt_irrefl id (hlt id hc)
  have hperm : List.Perm (List.insertionSort (· ≤ ·) (id :: rest)) (id :: rest) :=
    List.perm_insertionSort _ _
  have hsl : (List.insertionSort (· ≤ ·) (id :: rest)).Sorted (· ≤ ·) :=
    List.sorted_insertionSort _ _
  have hnodup : (List.insertionSort (· ≤ ·) (id :: rest)).Nodup :=
    hperm.nodup_iff.mpr (by simp [List.nodup_cons, hid, hn])
  have hslt : (List.insertionSort (· ≤ ·) (id :: rest)).Sorted (· < ·) :=
    hsl.lt_of_le hnodup
  have hlne : List.insertionSort (· ≤ ·) (id :: rest) ≠ [] := by
    have := hperm.length_eq
    intro hc
    rw [hc] at this
    simp at this
  have hmax : ∀ x ∈ List.insertionSort (· ≤ ·) (id :: rest), x ≤ id := by
    intro x hx
    rcases List.mem_cons.mp (hperm.mem_iff.mp hx) with h1 | h1
    · exact le_of_eq h1
    · exact le_of_lt (hlt x h1)
  have hmemid : id ∈ List.insertionSort (· ≤ ·) (id :: rest) :=
    hperm.mem_iff.mpr (List.mem_cons_self id rest)
  have hlast : (List.insertionSort (· ≤ ·) (id :: rest)).getLast hlne = id :=
    getLast_eq_of_max hslt hlne hmemid hmax
  have hd : (List.insertionSort (· ≤ ·) (id :: rest)).dropLast ++ [id]
      = List.insertionSort (· ≤ ·) (id :: rest) := by
    conv_rhs => rw [← List.dropLast_append_getLast hlne]
    rw [hlast]
  have hpwa : List.Pairwise (· < ·)
      ((List.insertionSort (· ≤ ·) (id :: rest)).dropLast ++ [id]) := by
    rw [hd]; exact hslt
  have hndpa : ((List.insertionSort (· ≤ ·) (id :: rest)).dropLast ++ [id]).Nodup := by
    rw [hd]; exact hnodup
  have hvnotid : id ∉ (List.insertionSort (· ≤ ·) (id :: rest)).dropLast := by
    intro hc
    have := (List.nodup_append.mp hndpa).2.2
    exact (this hc) (by simp)
  have hmemiff : ∀ x, x ∈ (List.insertionSort (· ≤ ·) (id :: rest)).dropLast ↔ x ∈ rest := by
    intro x
    constructor
    · intro hx
      have hxl : x ∈ List.insertionSort (· ≤ ·) (id :: rest) := by
        rw [← hd]; exact List.mem_append_left _ hx
      have hxne : x ≠ id := by
        intro hc; exact hvnotid (hc ▸ hx)
      rcases List.mem_cons.mp (hperm.mem_iff.mp hxl) with h1 | h1
      · exact absurd h1 hxne
      · exact h1
    · intro hx
      have hxne : x ≠ id := fun hc => hid (hc ▸ hx)
      have hxl : x ∈ List.insertionSort (· ≤ ·) (id :: rest) :=
        hperm.mem_iff.mpr (List.mem_cons_of_mem _ hx)
      rcases List.mem_append.mp (by rw [hd]; exact hxl :
          x ∈ (List.insertionSort (· ≤ ·) (id :: rest)).dropLast ++ [id]) with h1 | h1
      · exact h1
      · simp only [List.mem_singleton] at h1
        exact absurd h1 hxne
  refine ⟨(List.pairwise_append.mp hpwa).1, hvnotid, ?_, ?_, ?_, rfl⟩
  · ext x
    simp only [List.mem_toFinset]
    exact hmemiff x
  · have h1 : (List.insertionSort (· ≤ ·) (id :: rest)).dropLast.length
        = rest.length := by
      have hl := hperm.length_eq
      rw [List.length_dropLast, hl]
      simp
    rw [h1, List.toFinset_card_of_nodup hn]
  · intro x hx
    exact hlt x ((hmemiff x).mp hx)


theorem getD_set_self_agent {l : List Agent} {i : Nat} {a : Agent} (h : i < l.length) :
    (l.set i a).getD i defaultAgent = a := by
  rw [List.getD_eq_getElem _ _ (by simpa using h)]
  simp [h]

theorem getD_set_ne_agent {l : List Agent} {i j : Nat} {a : Agent} (hne : i ≠ j) :
    (l.set i a).getD j defaultAgent = l.getD j defaultAgent := by
  simp [List.getD_eq_getD_get?, List.getElem?_set_ne hne]

/-- Claim C8.  In an arena whose ids are assigned in non-decreasing
generation order and where every non-founder's parents have strictly
smaller ids, the agent on which `setAncestors` has been run has an
ancestor vector that never contains its own id, is strictly ascending,
and has exactly as many elements as its ancestor membership set. -/
theorem setAncestors_resolved_invariants (agents : List Agent) (id : Nat)
    (hlen : id < agents.length)
    (_hmono : ∀ i, i < agents.length → ∀ j, j < agents.length → i ≤ j →
      (agents.getD i defaultAgent).generation ≤ (agents.getD j defaultAgent).generation)
    (hpar : ∀ k, k < agents.length →
      (agents.getD k defaultAgent).generation ≠ 0 →
      (agents.getD k defaultAgent).mother < k ∧ (agents.getD k defaultAgent).father < k) :
    id ∉ ((setAncestors agents id).getD id defaultAgent).ancestorVec
    ∧ ((setAncestors agents id).getD id defaultAgent).ancestorVec.Sorted (· < ·)
    ∧ ((setAncestors agents id).getD id defaultAgent).ancestorVec.length
        = ((setAncestors agents id).getD id defaultAgent).ancestorSet.card := by
  obtain ⟨vec, st, heq, hs, hni, hts, hlen2, hlt, hset⟩ := setAncestors_spec agents id hpar
  rw [heq, getD_set_self_agent hlen]
  exact ⟨hni, hs, hlen2⟩

theorem setAncestors_resolved_invariants_witness :
    9 ∉ ((setAncestors testAgents 9).getD 9 defaultAgent).ancestorVec
    ∧ ((setAncestors testAgents 9).getD 9 defaultAgent).ancestorVec.Sorted (· < ·)
    ∧ ((setAncestors testAgents 9).getD 9 defaultAgent).ancestorVec.length
        = ((setAncestors testAgents 9).getD 9 defaultAgent).ancestorSet.card :=
  setAncestors_resolved_invariants testAgents 9 (by decide) (by decide) (by decide)


theorem addParent_subset (pr : List Nat × Finset Nat) (p : Nat) :
    pr.2 ⊆ (addParent pr p).2 := by
  rw [addParent]
  split
  · exact subset_rfl
  · exact Finset.subset_insert _ _

theorem setAncestorsLoop_subset (agents : List Agent) :
    ∀ (fuel : Nat) (pr : List Nat × Finset Nat) (sp gen : Nat),
      pr.2 ⊆ (setAncestorsLoop agents pr sp gen fuel).2 := by
  intro fuel
  induction fuel with
  | zero => intro pr sp gen; simp only [setAncestorsLoop]; exact subset_rfl
  | succ n ih =>
    intro pr sp gen
    by_cases hsp : sp < pr.1.length
    · by_cases hg : (agents.getD (pr.1.getD sp 0) defaultAgent).generation = 0
      · simp only [setAncestorsLoop, hsp, hg, if_true, if_false, ite_true, ite_false]
        exact subset_rfl
      · simp only [setAncestorsLoop, hsp, hg, if_true, if_false, ite_true, ite_false]
        exact subset_trans (subset_trans (addParent_subset _ _) (addParent_subset _ _))
          (ih _ _ _)
    · simp only [setAncestorsLoop, hsp, if_false, ite_false]
      exact subset_rfl

/-- Generation-bound invariant for the frontier loop: every discovered
ancestor is at a generation strictly below that of the query agent. -/
def genInv (agents : List Agent) (id g : Nat) (pr : List Nat × Finset Nat) : Prop :=
  (∀ x ∈ pr.1, x = id ∨ (agents.getD x defaultAgent).generation < g)
    ∧ (∀ x ∈ pr.2, (agents.getD x defaultAgent).generation < g)

theorem genInv_addParent {agents : List Agent} {id g : Nat}
    {pr : List Nat × Finset Nat} {p : Nat} (h : genInv agents id g pr)
    (hp : (agents.getD p defaultAgent).generation < g) :
    genInv agents id g (addParent pr p) := by
  rw [addParent]
  split
  · exact h
  · constructor
    · intro x hx
      rcases List.mem_append.mp hx with h1 | h1
      · exact h.1 x h1
      · simp only [List.mem_singleton] at h1
        exact Or.inr (h1 ▸ hp)
    · intro x hx
      rcases Finset.mem_insert.mp hx with h1 | h1
      · exact h1 ▸ hp
      · exact h.2 x h1

theorem setAncestorsLoop_genInv (agents : List Agent) (id g : Nat)
    (hgid : (agents.getD id defaultAgent).generation = g)
    (Hprev : ∀ k, k < agents.length →
      (agents.getD k defaultAgent).generation ≠ 0 →
      (agents.getD ((agents.getD k defaultAgent).mother) defaultAgent).generation
          = (agents.getD k defaultAgent).generation - 1
        ∧ (agents.getD ((agents.getD k defaultAgent).father) defaultAgent).generation
          = (agents.getD k defaultAgent).generation - 1) :
    ∀ (fuel : Nat) (pr : List Nat × Finset Nat) (sp gen : Nat),
      genInv agents id g pr → genInv agents id g (setAncestorsLoop agents pr sp gen fuel) := by
  intro fuel
  induction fuel with
  | zero => intro pr sp gen h; simpa only [setAncestorsLoop] using h
  | succ n ih =>
    intro pr sp gen h
    by_cases hsp : sp < pr.1.length
    · by_cases hg : (agents.getD (pr.1.getD sp 0) defaultAgent).generation = 0
      · simpa only [setAncestorsLoop, hsp, hg, if_true, if_false, ite_true, ite_false] using h
      · have hcm : pr.1.getD sp 0 ∈ pr.1 := by
          rw [List.getD_eq_getElem _ _ hsp]
          exact List.getElem_mem hsp
        have hcbound : (agents.getD (pr.1.getD sp 0) defaultAgent).generation ≤ g := by
          rcases h.1 _ hcm with h1 | h1
          · rw [h1, hgid]
          · exact le_of_lt h1
        have hclen : pr.1.getD sp 0 < agents.length := by
          by_contra hc
          refine hg ?_
          rw [List.getD_eq_default _ _ (not_lt.mp hc)]
          rfl
        have hprev := Hprev (pr.1.getD sp 0) hclen hg
        have hgpos : (agents.getD (pr.1.getD sp 0) defaultAgent).generation ≠ 0 := hg
        have hm : (agents.getD ((agents.getD (pr.1.getD sp 0) defaultAgent).mother)
            defaultAgent).generation < g := by omega
        have hf : (agents.getD ((agents.getD (pr.1.getD sp 0) defaultAgent).father)
            defaultAgent).generation < g := by omega
        simp only [setAncestorsLoop, hsp, hg, if_true, if_false, ite_true, ite_false]
        exact ih _ _ _ (genInv_addParent (genInv_addParent h hm) hf)
    · simpa only [setAncestorsLoop, hsp, if_false, ite_false] using h


theorem setAncestorsLoop_cons (agents : List Agent) (pr : List Nat × Finset Nat)
    (sp gen n : Nat) (hsp : sp < pr.1.length)
    (hg : (agents.getD (pr.1.getD sp 0) defaultAgent).generation ≠ 0) :
    setAncestorsLoop agents pr sp gen (n + 1)
      = setAncestorsLoop agents
          (addParent (addParent pr (agents.getD (pr.1.getD sp 0) defaultAgent).mother)
            (agents.getD (pr.1.getD sp 0) defaultAgent).father)
          (sp + 1)
          (min (agents.getD (pr.1.getD sp 0) defaultAgent).generation gen) n := by
  simp only [setAncestorsLoop, hsp, hg, if_true, if_false, ite_true, ite_false]

/-- Claim C10.  In an arena whose ids are in non-decreasing generation
order and where every non-founder's parents are stored earlier and lie in
the immediately preceding generation, for an agent of generation ≥ 1
whose ancestors have been resolved, the generational-distance function
applied to the pair (a, a) returns exactly 1: the backward scan first
hits the resolved vector's largest id, which is an ancestor one
generation back. -/
theorem generationDiff_self (agents : List Agent) (id : Nat)
    (hlen : id < agents.length)
    (hg1 : 1 ≤ (agents.getD id defaultAgent).generation)
    (hmono : ∀ i, i < agents.length → ∀ j, j < agents.length → i ≤ j →
      (agents.getD i defaultAgent).generation ≤ (agents.getD j defaultAgent).generation)
    (hprev : ∀ k, k < agents.length →
      (agents.getD k defaultAgent).generation ≠ 0 →
      (agents.getD k defaultAgent).mother < k ∧ (agents.getD k defaultAgent).father < k
        ∧ (agents.getD ((agents.getD k defaultAgent).mother) defaultAgent).generation
            = (agents.getD k defaultAgent).generation - 1
        ∧ (agents.getD ((agents.getD k defaultAgent).father) defaultAgent).generation
            = (agents.getD k defaultAgent).generation - 1) :
    generationDiff (setAncestors agents id)
      ((setAncestors agents id).getD id defaultAgent)
      ((setAncestors agents id).getD id defaultAgent) = 1 := by
  have hpar : ∀ k, k < agents.length →
      (agents.getD k defaultAgent).generation ≠ 0 →
      (agents.getD k defaultAgent).mother < k ∧ (agents.getD k defaultAgent).father < k :=
    fun k hk hgk => ⟨(hprev k hk hgk).1, (hprev k hk hgk).2.1⟩
  obtain ⟨vec, st, heq, hs, hni, hts, hlenv, hlt, hset⟩ := setAncestors_spec agents id hpar
  have hgid0 : (agents.getD id defaultAgent).generation ≠ 0 := by omega
  have hfuel : (2 : Nat) * agents.length + 2 = (2 * agents.length + 1) + 1 := rfl
  have hmm : (agents.getD id defaultAgent).mother
      ∈ (setAncestorsLoop agents ([id], ∅) 0
        ((agents.getD id defaultAgent).generation) (2 * agents.length + 2)).2 := by
    rw [hfuel, setAncestorsLoop_cons agents ([id], ∅) 0 _ _ (by simp) hgid0]
    refine setAncestorsLoop_subset agents _ _ _ _ ?_
    have hred : ((([id], (∅ : Finset Nat)).1.getD 0 0)) = id := rfl
    rw [hred]
    have h1 : addParent ([id], (∅ : Finset Nat)) (agents.getD id defaultAgent).mother
        = ([id, (agents.getD id defaultAgent).mother],
            {(agents.getD id defaultAgent).mother}) := by
      simp [addParent]
    rw [h1, addParent]
    split
    · simp
    · simp
  have hmst : (agents.getD id defaultAgent).mother ∈ st := hset ▸ hmm
  have hmv : (agents.getD id defaultAgent).mother ∈ vec :=
    List.mem_toFinset.mp (hts ▸ hmst)
  have vecne : vec ≠ [] := List.ne_nil_of_mem hmv
  have hlastmem : vec.getLast vecne ∈ vec := List.getLast_mem vecne
  have hd : vec.dropLast ++ [vec.getLast vecne] = vec :=
    List.dropLast_append_getLast vecne
  have hmax : ∀ x ∈ vec, x ≤ vec.getLast vecne := by
    intro x hx
    rcases List.mem_append.mp (show x ∈ vec.dropLast ++ [vec.getLast vecne] by
      rw [hd]; exact hx) with h1 | h1
    · have hpw : List.Pairwise (· < ·) (vec.dropLast ++ [vec.getLast vecne]) := by
        rw [hd]; exact hs
      exact le_of_lt ((List.pairwise_append.mp hpw).2.2 x h1 _ (by simp))
    · simp only [List.mem_singleton] at h1
      omega
  have hgi := setAncestorsLoop_genInv agents id
    ((agents.getD id defaultAgent).generation) rfl
    (fun k hk hgk => ⟨(hprev k hk hgk).2.2.1, (hprev k hk hgk).2.2.2⟩)
    (2 * agents.length + 2) ([id], ∅) 0
    ((agents.getD id defaultAgent).generation) ⟨by simp, by simp⟩
  have hgenlt : ∀ x ∈ st, (agents.getD x defaultAgent).generation
      < (agents.getD id defaultAgent).generation := by
    intro x hx
    exact hgi.2 x (hset ▸ hx)
  have hlstst : vec.getLast vecne ∈ st := hts ▸ List.mem_toFinset.mpr hlastmem
  have hlstlt : (agents.getD (vec.getLast vecne) defaultAgent).generation
      < (agents.getD id defaultAgent).generation := hgenlt _ hlstst
  have hlstid : vec.getLast vecne < id := hlt _ hlastmem
  have hmid : (agents.getD id defaultAgent).mother < id := (hprev id hlen hgid0).1
  have hmgen : (agents.getD ((agents.getD id defaultAgent).mother) defaultAgent).generation
      = (agents.getD id defaultAgent).generation - 1 := (hprev id hlen hgid0).2.2.1
  have hmono1 := hmono ((agents.getD id defaultAgent).mother)
    (lt_trans hmid hlen) (vec.getLast vecne) (lt_trans hlstid hlen)
    (hmax _ hmv)
  have hlstgen : (agents.getD (vec.getLast vecne) defaultAgent).generation
      = (agents.getD id defaultAgent).generation - 1 := by omega
  rw [heq, getD_set_self_agent hlen]
  show ((agents.getD id defaultAgent).generation : Int)
      - (genDiffFind (agents.set id _) st vec.reverse : Int) = 1
  have hrev : vec.reverse = vec.getLast vecne :: vec.dropLast.reverse := by
    conv_lhs => rw [← hd]
    rw [List.reverse_append]
    simp
  rw [hrev]
  simp only [genDiffFind, hlstst, if_true, ite_true]
  rw [getD_set_ne_agent (Nat.ne_of_gt hlstid)]
  rw [hlstgen]
  omega

theorem generationDiff_self_witness :
    generationDiff (setAncestors testAgents 9)
      ((setAncestors testAgents 9).getD 9 defaultAgent)
      ((setAncestors testAgents 9).getD 9 defaultAgent) = 1 :=
  generationDiff_self testAgents 9 (by decide) (by decide) (by decide) (by decide)



/-- Parent/generation view of an agent: the fields `newChild` fixes at
creation and never mutates afterwards (child-list appends excepted). -/
def famGen (a : Agent) : Nat × Nat × Nat := (a.father, a.mother, a.generation)

theorem map_set_eq_of_proj {β : Type} (f : Agent → β) :
    ∀ (l : List Agent) (i : Nat) (b : Agent), f b = f (l.getD i defaultAgent) →
      (l.set i b).map f = l.map f := by
  intro l
  induction l with
  | nil => intro i b _; simp
  | cons x xs ih =>
    intro i b hb
    cases i with
    | zero => simp_all [List.set]
    | succ n =>
      simp only [List.set, List.map_cons]
      rw [ih n b (by simpa using hb)]

theorem appendChildTo_map {β : Type} (f : Agent → β)
    (hf : ∀ (a : Agent) (c : List Nat), f { a with children := c } = f a)
    (l : List Agent) (pid cid : Nat) : (appendChildTo l pid cid).map f = l.map f :=
  map_set_eq_of_proj f l pid _ (hf _ _)

theorem famGen_children (a : Agent) (c : List Nat) :
    famGen { a with children := c } = famGen a := rfl

theorem genProj_children (a : Agent) (c : List Nat) :
    (fun x : Agent => x.generation) { a with children := c }
      = (fun x : Agent => x.generation) a := rfl

theorem newChild_famGen (agents : List Agent) (fa mo ng g : Nat) (mr : ℚ) (r : RNG) :
    (newChild agents fa mo ng g mr r).1.map famGen
      = agents.map famGen ++ [(fa, mo, g)] := by
  show ((appendChildTo (appendChildTo _ _ _) _ _).map famGen) = _
  rw [appendChildTo_map famGen famGen_children, appendChildTo_map famGen famGen_children]
  simp [famGen]

theorem newChild_mapGen (agents : List Agent) (fa mo ng g : Nat) (mr : ℚ) (r : RNG) :
    (newChild agents fa mo ng g mr r).1.map (fun a => a.generation)
      = agents.map (fun a => a.generation) ++ [g] := by
  show ((appendChildTo (appendChildTo _ _ _) _ _).map _) = _
  rw [appendChildTo_map _ genProj_children, appendChildTo_map _ genProj_children]
  simp

theorem newChild_length (agents : List Agent) (fa mo ng g : Nat) (mr : ℚ) (r : RNG) :
    (newChild agents fa mo ng g mr r).1.length = agents.length + 1 := by
  have h := congrArg List.length (newChild_mapGen agents fa mo ng g mr r)
  simpa using h

theorem inheritLoop_ti (fG mG : List String) (mr : ℚ) :
    ∀ (n i : Nat) (r : RNG), (inheritLoop fG mG mr i n r).2.ti = r.ti := by
  intro n
  induction n with
  | zero => intro i r; rfl
  | succ m ih =>
    intro i r
    simp only [inheritLoop]
    split
    · rw [ih]; rfl
    · rw [ih]; rfl

theorem newChild_ti (agents : List Agent) (fa mo ng g : Nat) (mr : ℚ) (r : RNG) :
    (newChild agents fa mo ng g mr r).2.ti = r.ti := by
  show (inheritLoop _ _ _ 0 ng _).2.ti = r.ti
  rw [inheritLoop_ti]
  rfl

theorem mkFounders_mapGen (ng : Nat) :
    ∀ (n i : Nat) (r : RNG),
      (mkFounders ng i n r).1.map (fun a => a.generation) = List.replicate n 0 := by
  intro n
  induction n with
  | zero => intro i r; rfl
  | succ m ih =>
    intro i r
    simp only [mkFounders, List.map_cons, List.replicate]
    rw [ih]
    rfl

theorem mkFounders_length (ng : Nat) :
    ∀ (n i : Nat) (r : RNG), (mkFounders ng i n r).1.length = n := by
  intro n i r
  have h := congrArg List.length (mkFounders_mapGen ng n i r)
  simpa using h

theorem listSwap_length (l : List selectedAgent) (i j : Nat) :
    (listSwap l i j).length = l.length := by
  simp [listSwap]

theorem shuffleLoop_length :
    ∀ (i : Nat) (l : List selectedAgent) (r : RNG),
      (shuffleLoop i l r).1.length = l.length := by
  intro i
  induction i with
  | zero => intro l r; rfl
  | succ n ih =>
    intro l r
    simp only [shuffleLoop]
    rw [ih, listSwap_length]

theorem shuffleGo_length (l : List selectedAgent) (r : RNG) :
    (shuffleGo l r).1.length = l.length := by
  simp [shuffleGo, shuffleLoop_length]

theorem anyMatingLoop_mapGen (cg : List selectedAgent) (ng g : Nat) (mr : ℚ) :
    ∀ (n : Nat) (agents : List Agent) (r : RNG),
      (anyMatingLoop cg ng g mr n agents r).1.map (fun a => a.generation)
        = agents.map (fun a => a.generation) ++ List.replicate n g := by
  intro n
  induction n with
  | zero => intro agents r; simp [anyMatingLoop]
  | succ m ih =>
    intro agents r
    simp only [anyMatingLoop]
    rw [ih, newChild_mapGen]
    simp [List.replicate_succ]

theorem anyMating_err (s : Simulation) (g : Nat) (r : RNG) :
    (anyMating s g r).2.2 = none := rfl

theorem anyMating_genBdrys (s : Simulation) (g : Nat) (r : RNG) :
    (anyMating s g r).1.genBdrys = s.genBdrys := rfl

theorem anyMating_currGen (s : Simulation) (g : Nat) (r : RNG) :
    (anyMating s g r).1.currGen = s.currGen := rfl

theorem anyMating_params (s : Simulation) (g : Nat) (r : RNG) :
    (anyMating s g r).1.params = s.params := rfl

theorem anyMating_mapGen (s : Simulation) (g : Nat) (r : RNG) :
    (anyMating s g r).1.agents.map (fun a => a.generation)
      = s.agents.map (fun a => a.generation)
        ++ List.replicate (iterationsFor s.params.GrowthRate s.currGen.length) g := by
  show (anyMatingLoop _ _ _ _ _ _ _).1.map _ = _
  rw [anyMatingLoop_mapGen]

theorem pairFunc_any (s : Simulation) (hm : s.params.Monogamous = false)
    (hc : s.params.Compatible = false) (g : Nat) (r : RNG) :
    pairFunc s g r = anyMating s g r := by
  simp [pairFunc, hm, hc]

theorem pairFunc_monog (s : Simulation) (hm : s.params.Monogamous = true)
    (g : Nat) (r : RNG) : pairFunc s g r = monogamousMating s g r := by
  simp [pairFunc, hm]

theorem pairFunc_nonmonog (s : Simulation) (hm : s.params.Monogamous = false)
    (hc : s.params.Compatible = true) (g : Nat) (r : RNG) :
    pairFunc s g r = nonMonogamousMating s g r := by
  simp [pairFunc, hm, hc]



theorem nonMonogSearchAux_lt_imp_compat (s : Simulation) (i : Nat) :
    ∀ (rem j : Nat) (c : Bool) (k : Nat) (r : RNG),
      (nonMonogSearchAux s i rem j c k r).2.2.1 < k + rem →
      (nonMonogSearchAux s i rem j c k r).2.1 = true := by
  intro rem
  induction rem with
  | zero =>
    intro j c k r h
    exact absurd h (by simp [nonMonogSearchAux])
  | succ m ih =>
    intro j c k r
    cases c with
    | false =>
      simp only [nonMonogSearchAux, eq_self_iff_true, ite_true]
      intro h
      exact ih _ _ _ _ (by omega)
    | true =>
      simp only [nonMonogSearchAux]
      rw [if_neg (by simp)]
      intro _
      rfl

theorem nonMonogSearch_lt_imp_compat (s : Simulation) (i : Nat)
    (matingK : Nat) (r : RNG) :
    (nonMonogSearch s i 0 false 0 matingK r).2.2.1 < matingK →
    (nonMonogSearch s i 0 false 0 matingK r).2.1 = true := by
  intro h
  refine nonMonogSearchAux_lt_imp_compat s i (matingK - 0) 0 false 0 r ?_
  simpa using h

theorem nonMonogLoop_one (generation : Nat) (s : Simulation) (r : RNG) :
    (nonMonogLoop generation 1 s r).1.agents.length
      = (if s.params.MatingK ≤ (nonMonogSearch s
            ((s.currGen.getD ((r.intn s.currGen.length).1) defaultSel).id)
            0 false 0 s.params.MatingK ((r.intn s.currGen.length).2)).2.2.1
         then s.agents.length else s.agents.length + 1) := by
  simp only [nonMonogLoop]
  split
  · rfl
  · simp only [nonMonogLoop]
    rw [newChild_length]

theorem nonMonogLoop_shape (generation : Nat) :
    ∀ (n : Nat) (s : Simulation) (r : RNG),
      ∃ ag, (nonMonogLoop generation n s r).1 = { s with agents := ag }
        ∧ s.agents.length ≤ ag.length := by
  intro n
  induction n with
  | zero => intro s r; exact ⟨s.agents, rfl, le_refl _⟩
  | succ m ih =>
    intro s r
    simp only [nonMonogLoop]
    split
    · obtain ⟨ag, h1, h2⟩ := ih s _
      exact ⟨ag, h1, h2⟩
    · obtain ⟨ag, h1, h2⟩ := ih _ _
      refine ⟨ag, h1, ?_⟩
      calc s.agents.length ≤ s.agents.length + 1 := Nat.le_succ _
        _ = _ := (newChild_length _ _ _ _ _ _ _).symm
        _ ≤ ag.length := h2

theorem nonMonogamousMating_err (s : Simulation) (g : Nat) (r : RNG) :
    (nonMonogamousMating s g r).2.2 = none := rfl

/-- Parameters of the two-founder retry scenario with budget `k`. -/
def retryParams (k : Nat) : Parameters :=
  { SimulationId := 0, NumAgents := 2, Generations := 1, GrowthRate := 1,
    Monogamous := false, MatingK := k, NumGenes := 0, MutationRate := 0,
    Compatible := true, MateSelf := false, MateSibling := false,
    MateCousin := false, MateSameSex := false, Analysis := "" }

/-- Two opposite-sex founders, non-monogamous compatibility-checked
strategy, retry budget `k`. -/
def retrySim (k : Nat) : Simulation :=
  { id := 0,
    agents := [mkAgent 0 0 Sex.MALE 0 0 [], mkAgent 1 0 Sex.FEMALE 0 0 []],
    currGen := [⟨0, false⟩, ⟨1, false⟩],
    genBdrys := [2], matingPairs := [],
    params := retryParams k }

/-- Identity draw oracle. -/
def idRNG : RNG := ⟨fun t => t, fun _ => true, 0, 0⟩

/-- Identity draw oracle after one consumed int draw. -/
def idRNG1 : RNG := ⟨fun t => t, fun _ => true, 1, 0⟩

/-- Claim C2, counterexample.  With retry budget K = 1 over two
opposite-sex founders, the single second-parent draw finds the compatible
partner (the search ends with `compat = true`, i.e. a compatible partner
was found within the K draws), yet the loop counter has reached K, so the
`k >= matingK` guard skips the iteration and no child is created —
refuting "a child is produced exactly when a compatible second parent is
found within the K draws". -/
theorem nonMonog_skip_at_K :
    (nonMonogSearch (retrySim 1) 0 0 false 0 (retrySim 1).params.MatingK idRNG1).2.1 = true
    ∧ (nonMonogSearch (retrySim 1) 0 0 false 0 (retrySim 1).params.MatingK idRNG1).2.2.1
        = (retrySim 1).params.MatingK
    ∧ (nonMonogLoop 1 1 (retrySim 1) idRNG).1.agents.length
        = (retrySim 1).agents.length := by
  decide

/-- Claim C2, amended.  In the non-monogamous-with-compatibility
strategy: the strategy always returns without error; whenever the retry
search ends with fewer than K draws consumed it did find a compatible
partner; and an offspring iteration adds exactly one agent when the
search's draw count ends strictly below K, and none otherwise — in
particular a partner found only on the exact K-th draw is discarded and
that iteration is skipped, the remaining iterations and the run
continuing without error. -/
theorem nonMonog_budget (s : Simulation) (generation : Nat) (r : RNG) :
    (nonMonogamousMating s generation r).2.2 = none
    ∧ (∀ (i : Nat) (r1 : RNG),
        (nonMonogSearch s i 0 false 0 s.params.MatingK r1).2.2.1 < s.params.MatingK →
        (nonMonogSearch s i 0 false 0 s.params.MatingK r1).2.1 = true)
    ∧ (nonMonogLoop generation 1 s r).1.agents.length
        = (if s.params.MatingK ≤ (nonMonogSearch s
              ((s.currGen.getD ((r.intn s.currGen.length).1) defaultSel).id)
              0 false 0 s.params.MatingK ((r.intn s.currGen.length).2)).2.2.1
           then s.agents.length else s.agents.length + 1) :=
  ⟨rfl, fun i r1 => nonMonogSearch_lt_imp_compat s i s.params.MatingK r1,
    nonMonogLoop_one generation s r⟩

/-- Witness for `nonMonog_budget`: with budget K = 2 the partner is found
on the first draw, strictly below the budget, and the search reports it. -/
theorem nonMonog_budget_witness :
    (nonMonogSearch (retrySim 2) 0 0 false 0 (retrySim 2).params.MatingK idRNG1).2.1 = true :=
  (nonMonog_budget (retrySim 2) 1 idRNG).2.1 0 idRNG1 (by decide)



theorem iterationsFor_eq_ceil (rate : ℚ) (n : Nat) :
    iterationsFor rate n = (⌈rate * (n : ℚ)⌉).toNat := by
  rw [iterationsFor]
  congr 1
  have hden : ((rate.den : ℕ) : ℚ) ≠ 0 := by positivity
  have h1 : -(rate * (n : ℚ)) = ((-(rate.num * n) : ℤ) : ℚ) / ((rate.den : ℕ) : ℚ) := by
    conv_lhs => rw [← Rat.num_div_den rate]
    push_cast
    field_simp
  have h2 : ⌈rate * (n : ℚ)⌉ = -⌊-(rate * (n : ℚ))⌋ := by
    rw [Int.floor_neg]
    ring
  rw [h2, h1, Rat.floor_intCast_div_natCast]



theorem pairScanAux_fields (agentA : Agent) (i : Nat) :
    ∀ (rem : Nat) (s : Simulation) (j : Nat),
      (pairScanAux agentA i rem s j).agents = s.agents
      ∧ (pairScanAux agentA i rem s j).genBdrys = s.genBdrys
      ∧ (pairScanAux agentA i rem s j).params = s.params
      ∧ (pairScanAux agentA i rem s j).currGen.length = s.currGen.length := by
  intro rem
  induction rem with
  | zero => intro s j; exact ⟨rfl, rfl, rfl, rfl⟩
  | succ m ih =>
    intro s j
    simp only [pairScanAux]
    split
    · exact ih s (j + 1)
    · split
      · exact ⟨rfl, rfl, rfl, by simp⟩
      · exact ih s (j + 1)

theorem pairScan_fields (s : Simulation) (agentA : Agent) (i j hi : Nat) :
    (pairScan s agentA i j hi).agents = s.agents
    ∧ (pairScan s agentA i j hi).genBdrys = s.genBdrys
    ∧ (pairScan s agentA i j hi).params = s.params
    ∧ (pairScan s agentA i j hi).currGen.length = s.currGen.length :=
  pairScanAux_fields agentA i (hi - j) s j

theorem pairAgentsLoopAux_fields :
    ∀ (rem : Nat) (s : Simulation) (i : Nat),
      (pairAgentsLoopAux rem s i).agents = s.agents
      ∧ (pairAgentsLoopAux rem s i).genBdrys = s.genBdrys
      ∧ (pairAgentsLoopAux rem s i).params = s.params
      ∧ (pairAgentsLoopAux rem s i).currGen.length = s.currGen.length := by
  intro rem
  induction rem with
  | zero => intro s i; exact ⟨rfl, rfl, rfl, rfl⟩
  | succ m ih =>
    intro s i
    simp only [pairAgentsLoopAux]
    split
    · exact ih s (i + 1)
    · obtain ⟨h1, h2, h3, h4⟩ := ih (pairScan s _ i (i + 1) _) (i + 1)
      obtain ⟨g1, g2, g3, g4⟩ := pairScan_fields s _ i (i + 1) _
      exact ⟨h1.trans g1, h2.trans g2, h3.trans g3, h4.trans g4⟩

theorem pairAgents_fields (s : Simulation) :
    (pairAgents s).agents = s.agents
    ∧ (pairAgents s).genBdrys = s.genBdrys
    ∧ (pairAgents s).params = s.params
    ∧ (pairAgents s).currGen.length = s.currGen.length :=
  pairAgentsLoopAux_fields (s.currGen.length - 0) { s with matingPairs := [] } 0

theorem inheritLoop_ints (fG mG : List String) (mr : ℚ) :
    ∀ (n i : Nat) (r : RNG), (inheritLoop fG mG mr i n r).2.ints = r.ints := by
  intro n
  induction n with
  | zero => intro i r; rfl
  | succ m ih =>
    intro i r
    simp only [inheritLoop]
    split
    · rw [ih]; rfl
    · rw [ih]; rfl

theorem newChild_ints (agents : List Agent) (fa mo ng g : Nat) (mr : ℚ) (r : RNG) :
    (newChild agents fa mo ng g mr r).2.ints = r.ints := by
  show (inheritLoop _ _ _ 0 ng _).2.ints = r.ints
  rw [inheritLoop_ints]
  rfl

theorem makeChildrenLoop_famGen (pairs : List matingPair) (ng g : Nat) (mr : ℚ) :
    ∀ (n : Nat) (agents : List Agent) (r : RNG),
      (makeChildrenLoop pairs ng g mr n agents r).1.map famGen
        = agents.map famGen
          ++ (List.range n).map (fun t =>
              ((pairs.getD (r.ints (r.ti + t) % pairs.length) defaultPair).male,
               (pairs.getD (r.ints (r.ti + t) % pairs.length) defaultPair).female, g)) := by
  intro n
  induction n with
  | zero => intro agents r; simp [makeChildrenLoop]
  | succ m ih =>
    intro agents r
    simp only [makeChildrenLoop]
    rw [ih, newChild_famGen, newChild_ti, newChild_ints]
    rw [show (r.intn pairs.length).2.ti = r.ti + 1 from rfl]
    rw [show (r.intn pairs.length).2.ints = r.ints from rfl]
    rw [show (r.intn pairs.length).1 = r.ints r.ti % pairs.length from rfl]
    rw [List.range_succ_eq_map, List.map_cons, List.map_map, Nat.add_zero]
    rw [List.append_assoc, List.singleton_append]
    congr 1
    congr 1
    congr 1
    funext t
    simp only [Function.comp_apply]
    have harith : r.ti + 1 + t = r.ti + Nat.succ t := by omega
    rw [harith]

theorem makeChildrenLoop_length (pairs : List matingPair) (ng g : Nat) (mr : ℚ) :
    ∀ (n : Nat) (agents : List Agent) (r : RNG),
      (makeChildrenLoop pairs ng g mr n agents r).1.length = agents.length + n := by
  intro n agents r
  have h := congrArg List.length (makeChildrenLoop_famGen pairs ng g mr n agents r)
  simpa using h


/-- Claim C3.  Monogamous strategy: (i) if the pairing algorithm produces
zero pairs, the strategy returns the "No mating pairs" error with the
arena and index untouched; (ii) if the pool is non-empty, the strategy
succeeds and appends exactly `ceil(growthRate * currentGenerationSize)`
offspring, the t-th offspring's parents being the pool entry selected by
the t-th random draw reduced modulo the pool size (drawing with
replacement); (iii) in the driver, a step whose pairing pool is empty
propagates the error and leaves both the arena and the Generation Index
exactly as they were. -/
theorem monogamousMating_spec (s : Simulation) (generation : Nat) (r : RNG) :
    ((pairAgents s).matingPairs.length = 0 →
      monogamousMating s generation r
        = (pairAgents s, r,
            some (toString (pairAgents s).id ++ ", Error: No mating pairs for generation "
              ++ toString generation))
      ∧ (pairAgents s).agents = s.agents ∧ (pairAgents s).genBdrys = s.genBdrys)
    ∧ ((pairAgents s).matingPairs.length ≠ 0 →
      (monogamousMating s generation r).2.2 = none
      ∧ (monogamousMating s generation r).1.agents.map famGen
          = s.agents.map famGen
            ++ (List.range ((⌈s.params.GrowthRate * (s.currGen.length : ℚ)⌉).toNat)).map
              (fun t => (((pairAgents s).matingPairs.getD
                    (r.ints (r.ti + t) % (pairAgents s).matingPairs.length) defaultPair).male,
                 ((pairAgents s).matingPairs.getD
                    (r.ints (r.ti + t) % (pairAgents s).matingPairs.length) defaultPair).female,
                 generation)))
    ∧ (∀ (i rem : Nat), s.params.Monogamous = true → ¬(s.currGen.length < 2) →
        (pairAgents { s with currGen := (shuffleGo s.currGen r).1 }).matingPairs.length = 0 →
        (simulateSteps s r i (rem + 1)).1.agents = s.agents
        ∧ (simulateSteps s r i (rem + 1)).1.genBdrys = s.genBdrys
        ∧ (simulateSteps s r i (rem + 1)).2.2.isSome = true) := by
  obtain ⟨hag, hbd, hpr, hcg⟩ := pairAgents_fields s
  refine ⟨?_, ?_, ?_⟩
  · intro h0
    refine ⟨?_, hag, hbd⟩
    simp only [monogamousMating]
    rw [if_pos h0]
  · intro h0
    constructor
    · simp only [monogamousMating]
      rw [if_neg h0]
    · simp only [monogamousMating]
      rw [if_neg h0]
      show (makeChildrenLoop _ _ _ _ _ _ _).1.map famGen = _
      rw [makeChildrenLoop_famGen, hag, hpr, hcg, iterationsFor_eq_ceil]
  · intro i rem hm h2 hp0
    obtain ⟨gag, gbd, _, _⟩ := pairAgents_fields { s with currGen := (shuffleGo s.currGen r).1 }
    have hdisp : pairFunc { s with currGen := (shuffleGo s.currGen r).1 } i
        (shuffleGo s.currGen r).2
        = monogamousMating { s with currGen := (shuffleGo s.currGen r).1 } i
          (shuffleGo s.currGen r).2 :=
      pairFunc_monog { s with currGen := (shuffleGo s.currGen r).1 } hm i
        (shuffleGo s.currGen r).2
    have herr : monogamousMating { s with currGen := (shuffleGo s.currGen r).1 } i
        (shuffleGo s.currGen r).2
        = (pairAgents { s with currGen := (shuffleGo s.currGen r).1 },
            (shuffleGo s.currGen r).2,
            some (toString (pairAgents { s with currGen := (shuffleGo s.currGen r).1 }).id
              ++ ", Error: No mating pairs for generation " ++ toString i)) := by
      simp only [monogamousMating]
      rw [if_pos hp0]
    have hstep : simulateSteps s r i (rem + 1)
        = (pairAgents { s with currGen := (shuffleGo s.currGen r).1 },
            (shuffleGo s.currGen r).2,
            some (toString (pairAgents { s with currGen := (shuffleGo s.currGen r).1 }).id
              ++ ", Error: No mating pairs for generation " ++ toString i)) := by
      simp only [simulateSteps]
      rw [if_neg h2, hdisp, herr]
    rw [hstep]
    exact ⟨gag, gbd, rfl⟩

/-- The test pedigree under the monogamous strategy. -/
def monogSim : Simulation :=
  { testSim with params := { testParams with Monogamous := true } }

/-- Witness for `monogamousMating_spec`: the test pedigree's last
generation pairs agent 9 with agent 11, the pool is non-empty, and the
strategy succeeds. -/
theorem monogamousMating_spec_witness :
    (monogamousMating monogSim 4 idRNG).2.2 = none :=
  ((monogamousMating_spec monogSim 4 idRNG).2.1 (by decide)).1



theorem anyMating_length (s : Simulation) (g : Nat) (r : RNG) :
    (anyMating s g r).1.agents.length
      = s.agents.length + iterationsFor s.params.GrowthRate s.currGen.length := by
  have h := congrArg List.length (anyMating_mapGen s g r)
  simpa using h

theorem makeChildrenMonogamous_length (s : Simulation) (g : Nat) (r : RNG) :
    (makeChildrenMonogamous s g r).1.agents.length
      = s.agents.length + iterationsFor s.params.GrowthRate s.currGen.length := by
  show (makeChildrenLoop _ _ _ _ _ _ _).1.length = _
  rw [makeChildrenLoop_length]

theorem setCurrGen_fields (s : Simulation) (gen : Nat) :
    (setCurrGen s gen).agents = s.agents
    ∧ (setCurrGen s gen).genBdrys = s.genBdrys
    ∧ (setCurrGen s gen).params = s.params := by
  simp only [setCurrGen]
  split
  · exact ⟨rfl, rfl, rfl⟩
  · exact ⟨rfl, rfl, rfl⟩

theorem pairFunc_preserves (s : Simulation) (g : Nat) (r : RNG) :
    (pairFunc s g r).1.genBdrys = s.genBdrys
    ∧ s.agents.length ≤ (pairFunc s g r).1.agents.length := by
  cases hM : s.params.Monogamous with
  | true =>
    rw [pairFunc_monog s hM g r]
    obtain ⟨hag, hbd, hpr, hcg⟩ := pairAgents_fields s
    by_cases h0 : (pairAgents s).matingPairs.length = 0
    · simp only [monogamousMating]
      rw [if_pos h0]
      exact ⟨hbd, le_of_eq (congrArg List.length hag).symm⟩
    · simp only [monogamousMating]
      rw [if_neg h0]
      constructor
      · show (pairAgents s).genBdrys = s.genBdrys
        exact hbd
      · show s.agents.length ≤ (makeChildrenMonogamous (pairAgents s) g r).1.agents.length
        rw [makeChildrenMonogamous_length, hag]
        exact Nat.le_add_right _ _
  | false =>
    cases hC : s.params.Compatible with
    | false =>
      rw [pairFunc_any s hM hC g r]
      refine ⟨anyMating_genBdrys s g r, ?_⟩
      rw [anyMating_length]
      exact Nat.le_add_right _ _
    | true =>
      rw [pairFunc_nonmonog s hM hC g r]
      obtain ⟨ag, h1, h2⟩ := nonMonogLoop_shape g
        (iterationsFor s.params.GrowthRate s.currGen.length) s r
      show ((nonMonogLoop g _ s r).1.genBdrys = s.genBdrys)
        ∧ s.agents.length ≤ (nonMonogLoop g _ s r).1.agents.length
      rw [h1]
      exact ⟨rfl, h2⟩

theorem simulateSteps_invariant :
    ∀ (rem : Nat) (s : Simulation) (r : RNG) (i : Nat),
      s.genBdrys.getLast? = some s.agents.length →
      s.genBdrys.Chain' (· ≤ ·) →
      (simulateSteps s r i rem).2.2 = none →
      (simulateSteps s r i rem).1.genBdrys.length = s.genBdrys.length + rem
      ∧ (simulateSteps s r i rem).1.genBdrys.Chain' (· ≤ ·)
      ∧ (simulateSteps s r i rem).1.genBdrys.getLast?
          = some (simulateSteps s r i rem).1.agents.length := by
  intro rem
  induction rem with
  | zero =>
    intro s r i hlast hchain _
    exact ⟨rfl, hchain, hlast⟩
  | succ m ih =>
    intro s r i hlast hchain hok
    by_cases h2 : s.currGen.length < 2
    · exfalso
      simp only [simulateSteps] at hok
      rw [if_pos h2] at hok
      simp at hok
    · rcases hcase : (pairFunc { s with currGen := (shuffleGo s.currGen r).1 } i
          (shuffleGo s.currGen r).2).2.2 with _ | e
      · have hstep : simulateSteps s r i (m + 1)
            = simulateSteps
                (setCurrGen
                  { (pairFunc { s with currGen := (shuffleGo s.currGen r).1 } i
                      (shuffleGo s.currGen r).2).1 with
                    genBdrys := (pairFunc { s with currGen := (shuffleGo s.currGen r).1 } i
                          (shuffleGo s.currGen r).2).1.genBdrys
                      ++ [(pairFunc { s with currGen := (shuffleGo s.currGen r).1 } i
                            (shuffleGo s.currGen r).2).1.agents.length] } i)
                (pairFunc { s with currGen := (shuffleGo s.currGen r).1 } i
                  (shuffleGo s.currGen r).2).2.1 (i + 1) m := by
          simp only [simulateSteps]
          rw [if_neg h2, hcase]
        obtain ⟨hpb, hpl⟩ := pairFunc_preserves
          { s with currGen := (shuffleGo s.currGen r).1 } i (shuffleGo s.currGen r).2
        obtain ⟨hca, hcb, _⟩ := setCurrGen_fields
          { (pairFunc { s with currGen := (shuffleGo s.currGen r).1 } i
              (shuffleGo s.currGen r).2).1 with
            genBdrys := (pairFunc { s with currGen := (shuffleGo s.currGen r).1 } i
                  (shuffleGo s.currGen r).2).1.genBdrys
              ++ [(pairFunc { s with currGen := (shuffleGo s.currGen r).1 } i
                    (shuffleGo s.currGen r).2).1.agents.length] } i
        rw [hstep] at hok ⊢
        have hlast2 := hcb.trans rfl
        obtain ⟨q1, q2, q3⟩ := ih _ _ (i + 1) (by rw [hcb, hca]; simp) (by
          rw [hcb]
          rw [List.chain'_append, hpb]
          refine ⟨hchain, by simp, ?_⟩
          intro x hx y hy
          simp only [List.head?_cons, Option.mem_def, Option.some.injEq] at hy
          rw [hlast] at hx
          simp only [Option.mem_def, Option.some.injEq] at hx
          subst hx
          subst hy
          exact hpl) hok
        refine ⟨?_, q2, q3⟩
        rw [q1, hcb, hpb]
        simp only [List.length_append, List.length_singleton]
        omega
      · exfalso
        have hstep : simulateSteps s r i (m + 1)
            = ((pairFunc { s with currGen := (shuffleGo s.currGen r).1 } i
                  (shuffleGo s.currGen r).2).1,
                (pairFunc { s with currGen := (shuffleGo s.currGen r).1 } i
                  (shuffleGo s.currGen r).2).2.1, some e) := by
          simp only [simulateSteps]
          rw [if_neg h2, hcase]
        rw [hstep] at hok
        simp at hok


/-- Claim C4, counterexample.  A run with two founders, one generation,
non-monogamous compatible strategy and retry budget 0 completes without
error (every offspring iteration is skipped), yet its Generation Index is
[2, 2]: exactly n+1 entries with last entry equal to the arena length,
but not strictly increasing. -/
theorem genIndex_not_strict :
    (Simulate (NewSimulation (retryParams 0) idRNG).1 idRNG).2.2 = none
    ∧ (Simulate (NewSimulation (retryParams 0) idRNG).1 idRNG).1.genBdrys = [2, 2]
    ∧ (Simulate (NewSimulation (retryParams 0) idRNG).1 idRNG).1.agents.length = 2
    ∧ ¬ List.Chain' (· < ·) [(2 : Nat), 2] := by
  refine ⟨by decide, by decide, by decide, ?_⟩
  intro hc
  rw [List.chain'_cons] at hc
  exact lt_irrefl 2 hc.1

/-- Claim C4, amended.  For every configuration and oracle, when the `n`
configured generation steps all complete without error the Generation
Index holds exactly n+1 entries, is non-decreasing (not necessarily
strictly increasing: a step may legitimately add zero offspring), and its
final entry equals the arena length. -/
theorem generationIndex_invariant (p : Parameters) (r0 r1 : RNG)
    (hok : (Simulate (NewSimulation p r0).1 r1).2.2 = none) :
    (Simulate (NewSimulation p r0).1 r1).1.genBdrys.length = p.Generations + 1
    ∧ List.Chain' (· ≤ ·) (Simulate (NewSimulation p r0).1 r1).1.genBdrys
    ∧ (Simulate (NewSimulation p r0).1 r1).1.genBdrys.getLast?
        = some (Simulate (NewSimulation p r0).1 r1).1.agents.length := by
  simp only [Simulate] at hok ⊢
  obtain ⟨hca, hcb, _⟩ := setCurrGen_fields (NewSimulation p r0).1 0
  obtain ⟨q1, q2, q3⟩ := simulateSteps_invariant ((NewSimulation p r0).1.params.Generations)
    (setCurrGen (NewSimulation p r0).1 0) r1 1
    (by rw [hca, hcb]; simp [NewSimulation]) (by rw [hcb]; simp [NewSimulation]) hok
  refine ⟨?_, q2, q3⟩
  rw [q1, hcb]
  have hgl : (NewSimulation p r0).1.genBdrys.length = 1 := by simp [NewSimulation]
  have hpg : (NewSimulation p r0).1.params.Generations = p.Generations := rfl
  rw [hgl, hpg]
  omega

/-- Parameters of the zero-generation witness run. -/
def zeroGenParams : Parameters := { retryParams 0 with Generations := 0 }

/-- Witness for `generationIndex_invariant`: the zero-generation run
completes trivially and its index has exactly one entry. -/
theorem generationIndex_invariant_witness :
    (Simulate (NewSimulation zeroGenParams idRNG).1 idRNG).1.genBdrys.length
      = zeroGenParams.Generations + 1 :=
  (generationIndex_invariant zeroGenParams idRNG idRNG rfl).1



theorem setCurrGen_length (s : Simulation) (gen : Nat) (hlt : gen < s.genBdrys.length) :
    (setCurrGen s gen).currGen.length
      = min (s.genBdrys.getD gen 0 - (if gen = 0 then 0 else s.genBdrys.getD (gen - 1) 0))
          (s.agents.length - (if gen = 0 then 0 else s.genBdrys.getD (gen - 1) 0)) := by
  simp only [setCurrGen]
  rw [if_neg (not_le.mpr hlt)]
  simp [List.length_take, List.length_drop]

theorem simulateSteps_any_step (s : Simulation) (r : RNG) (i m : Nat)
    (h2 : ¬(s.currGen.length < 2)) (hm : s.params.Monogamous = false)
    (hc : s.params.Compatible = false) :
    simulateSteps s r i (m + 1)
      = simulateSteps
          (setCurrGen
            { (anyMating { s with currGen := (shuffleGo s.currGen r).1 } i
                (shuffleGo s.currGen r).2).1 with
              genBdrys := s.genBdrys
                ++ [(anyMating { s with currGen := (shuffleGo s.currGen r).1 } i
                      (shuffleGo s.currGen r).2).1.agents.length] } i)
          (anyMating { s with currGen := (shuffleGo s.currGen r).1 } i
            (shuffleGo s.currGen r).2).2.1 (i + 1) m := by
  simp only [simulateSteps]
  rw [if_neg h2, pairFunc_any { s with currGen := (shuffleGo s.currGen r).1 } hm hc]
  rfl


theorem any_step_packaged (s : Simulation) (r : RNG) (i m n : Nat)
    (G bd : List Nat)
    (hcg : s.currGen.length = n) (h2 : 2 ≤ n)
    (hm : s.params.Monogamous = false) (hc : s.params.Compatible = false)
    (hmap : s.agents.map (fun a => a.generation) = G)
    (hbd : s.genBdrys = bd) (hbl : bd.length = i) (hi1 : 1 ≤ i) :
    ∃ s' r', simulateSteps s r i (m + 1) = simulateSteps s' r' (i + 1) m
      ∧ s'.agents.map (fun a => a.generation)
          = G ++ List.replicate (iterationsFor s.params.GrowthRate n) i
      ∧ s'.genBdrys = bd ++ [G.length + iterationsFor s.params.GrowthRate n]
      ∧ s'.params = s.params
      ∧ s'.currGen.length
          = G.length + iterationsFor s.params.GrowthRate n - bd.getD (i - 1) 0 := by
  have h2' : ¬(s.currGen.length < 2) := by omega
  have hstep := simulateSteps_any_step s r i m h2' hm hc
  have hsh : (shuffleGo s.currGen r).1.length = n := by
    rw [shuffleGo_length, hcg]
  have hs1map : ({ s with currGen := (shuffleGo s.currGen r).1 } :
      Simulation).agents.map (fun a => a.generation) = G := hmap
  have hB1map : (anyMating { s with currGen := (shuffleGo s.currGen r).1 } i
      (shuffleGo s.currGen r).2).1.agents.map (fun a => a.generation)
      = G ++ List.replicate (iterationsFor s.params.GrowthRate n) i := by
    rw [anyMating_mapGen]
    show s.agents.map (fun a => a.generation)
        ++ List.replicate (iterationsFor s.params.GrowthRate
          (shuffleGo s.currGen r).1.length) i = _
    rw [hmap, hsh]
  have hB1len : (anyMating { s with currGen := (shuffleGo s.currGen r).1 } i
      (shuffleGo s.currGen r).2).1.agents.length
      = G.length + iterationsFor s.params.GrowthRate n := by
    have h := congrArg List.length hB1map
    simpa using h
  obtain ⟨hca, hcb, hcp⟩ := setCurrGen_fields
    { (anyMating { s with currGen := (shuffleGo s.currGen r).1 } i
        (shuffleGo s.currGen r).2).1 with
      genBdrys := s.genBdrys
        ++ [(anyMating { s with currGen := (shuffleGo s.currGen r).1 } i
              (shuffleGo s.currGen r).2).1.agents.length] } i
  refine ⟨_, _, hstep, ?_, ?_, ?_, ?_⟩
  · rw [hca]
    exact hB1map
  · rw [hcb]
    show s.genBdrys ++ [_] = _
    rw [hB1len, hbd]
  · rw [hcp]
    show (anyMating { s with currGen := (shuffleGo s.currGen r).1 } i
      (shuffleGo s.currGen r).2).1.params = s.params
    rw [anyMating_params]
  · rw [setCurrGen_length]
    · show min
        ((s.genBdrys ++ [(anyMating { s with currGen := (shuffleGo s.currGen r).1 } i
            (shuffleGo s.currGen r).2).1.agents.length]).getD i 0
          - (if i = 0 then 0
             else (s.genBdrys ++ [(anyMating { s with currGen := (shuffleGo s.currGen r).1 } i
                (shuffleGo s.currGen r).2).1.agents.length]).getD (i - 1) 0))
        ((anyMating { s with currGen := (shuffleGo s.currGen r).1 } i
            (shuffleGo s.currGen r).2).1.agents.length
          - (if i = 0 then 0
             else (s.genBdrys ++ [(anyMating { s with currGen := (shuffleGo s.currGen r).1 } i
                (shuffleGo s.currGen r).2).1.agents.length]).getD (i - 1) 0)) = _
      rw [if_neg (by omega), hB1len, hbd]
      rw [List.getD_append_right _ _ _ _ (by omega), List.getD_append _ _ _ _ (by omega)]
      rw [hbl]
      simp
    · show i < ((s.genBdrys ++ [_]).length)
      rw [hbd]
      simp only [List.length_append, List.length_singleton, hbl]
      omega


/-- Claim C7.  Every run configured with 2 founders, 2 generations,
growth rate 2.0 and the unconstrained strategy — whatever the random
draws — completes without error with Generation Index [2, 6, 14], final
arena size 14, agent 1 at generation 0, agents 2–5 at generation 1 and
agents 6–13 at generation 2. -/
theorem unconstrained_2x2_scenario (p : Parameters) (r0 r1 : RNG)
    (hN : p.NumAgents = 2) (hG : p.Generations = 2) (hR : p.GrowthRate = 2)
    (hM : p.Monogamous = false) (hC : p.Compatible = false) :
    (Simulate (NewSimulation p r0).1 r1).2.2 = none
    ∧ (Simulate (NewSimulation p r0).1 r1).1.genBdrys = [2, 6, 14]
    ∧ (Simulate (NewSimulation p r0).1 r1).1.agents.length = 14
    ∧ ((Simulate (NewSimulation p r0).1 r1).1.agents.getD 1 defaultAgent).generation = 0
    ∧ (∀ i, 2 ≤ i → i ≤ 5 →
        ((Simulate (NewSimulation p r0).1 r1).1.agents.getD i defaultAgent).generation = 1)
    ∧ (∀ i, 6 ≤ i → i ≤ 13 →
        ((Simulate (NewSimulation p r0).1 r1).1.agents.getD i defaultAgent).generation = 2) := by
  have hf_gen : (NewSimulation p r0).1.agents.map (fun a => a.generation) = [0, 0] := by
    show (mkFounders p.NumGenes 0 p.NumAgents r0).1.map _ = _
    rw [mkFounders_mapGen, hN]
    rfl
  have hf_len : (NewSimulation p r0).1.agents.length = 2 := by
    simpa using congrArg List.length hf_gen
  have hs0_bd : (NewSimulation p r0).1.genBdrys = [2] := by
    show [(mkFounders p.NumGenes 0 p.NumAgents r0).1.length] = [2]
    rw [mkFounders_length, hN]
  obtain ⟨hA_ag, hA_bd, hA_pa⟩ := setCurrGen_fields (NewSimulation p r0).1 0
  have hA_map : (setCurrGen (NewSimulation p r0).1 0).agents.map
      (fun a => a.generation) = [0, 0] := by rw [hA_ag, hf_gen]
  have hA_bd2 : (setCurrGen (NewSimulation p r0).1 0).genBdrys = [2] := by
    rw [hA_bd, hs0_bd]
  have hA_pm : (setCurrGen (NewSimulation p r0).1 0).params.Monogamous = false := by
    rw [hA_pa]; exact hM
  have hA_pc : (setCurrGen (NewSimulation p r0).1 0).params.Compatible = false := by
    rw [hA_pa]; exact hC
  have hA_gr : (setCurrGen (NewSimulation p r0).1 0).params.GrowthRate = 2 := by
    rw [hA_pa]; exact hR
  have hA_cg : (setCurrGen (NewSimulation p r0).1 0).currGen.length = 2 := by
    rw [setCurrGen_length _ 0 (by rw [hs0_bd]; simp)]
    rw [hs0_bd, hf_len]
    rfl
  have hsim : Simulate (NewSimulation p r0).1 r1
      = simulateSteps (setCurrGen (NewSimulation p r0).1 0) r1 1 2 := by
    simp only [Simulate]
    rw [show (NewSimulation p r0).1.params.Generations = p.Generations from rfl, hG]
  obtain ⟨sB, rB, hst1, hB_map, hB_bd, hB_pa, hB_cg⟩ := any_step_packaged
    (setCurrGen (NewSimulation p r0).1 0) r1 1 1 2 [0, 0] [2]
    hA_cg (by omega) hA_pm hA_pc hA_map hA_bd2 (by simp) (by omega)
  rw [hA_gr] at hB_map hB_bd hB_cg
  have hit1 : iterationsFor (2 : ℚ) 2 = 4 := by decide
  rw [hit1] at hB_map hB_bd hB_cg
  have hB_map2 : sB.agents.map (fun a => a.generation) = [0, 0, 1, 1, 1, 1] := by
    rw [hB_map]; rfl
  have hB_bd2 : sB.genBdrys = [2, 6] := by rw [hB_bd]; rfl
  have hB_cg2 : sB.currGen.length = 4 := by rw [hB_cg]; rfl
  have hB_pm : sB.params.Monogamous = false := by rw [hB_pa]; exact hA_pm
  have hB_pc : sB.params.Compatible = false := by rw [hB_pa]; exact hA_pc
  have hB_gr : sB.params.GrowthRate = 2 := by rw [hB_pa]; exact hA_gr
  obtain ⟨sC, rC, hst2, hC_map, hC_bd, hC_pa, hC_cg⟩ := any_step_packaged
    sB rB 2 0 4 [0, 0, 1, 1, 1, 1] [2, 6]
    hB_cg2 (by omega) hB_pm hB_pc hB_map2 hB_bd2 (by simp) (by omega)
  rw [hB_gr] at hC_map hC_bd
  have hit2 : iterationsFor (2 : ℚ) 4 = 8 := by decide
  rw [hit2] at hC_map hC_bd
  have hC_map2 : sC.agents.map (fun a => a.generation)
      = [0, 0, 1, 1, 1, 1, 2, 2, 2, 2, 2, 2, 2, 2] := by rw [hC_map]; rfl
  have hC_bd2 : sC.genBdrys = [2, 6, 14] := by rw [hC_bd]; rfl
  have hfin : Simulate (NewSimulation p r0).1 r1 = (sC, rC, none) := by
    rw [hsim, hst1, hst2]
    rfl
  have hlen : sC.agents.length = 14 := by simpa using congrArg List.length hC_map2
  have hgetD : ∀ i, (sC.agents.getD i defaultAgent).generation
      = ([0, 0, 1, 1, 1, 1, 2, 2, 2, 2, 2, 2, 2, 2] : List Nat).getD i 0 := by
    intro i
    have h : (sC.agents.map (fun a => a.generation)).getD i
        ((fun a : Agent => a.generation) defaultAgent)
        = (fun a : Agent => a.generation) (sC.agents.getD i defaultAgent) :=
      List.getD_map sC.agents defaultAgent (fun a => a.generation)
    rw [hC_map2] at h
    exact h.symm
  rw [hfin]
  refine ⟨rfl, hC_bd2, hlen, ?_, ?_, ?_⟩
  · show (sC.agents.getD 1 defaultAgent).generation = 0
    rw [hgetD]
    rfl
  · intro i h1 h2
    show (sC.agents.getD i defaultAgent).generation = 1
    rw [hgetD]
    interval_cases i <;> rfl
  · intro i h1 h2
    show (sC.agents.getD i defaultAgent).generation = 2
    rw [hgetD]
    interval_cases i <;> rfl


/-- The scenario configuration of the test suite: 2 founders,
2 generations, growth rate 2.0, unconstrained strategy. -/
def scenarioParams : Parameters :=
  { SimulationId := 0, NumAgents := 2, Generations := 2, GrowthRate := 2,
    Monogamous := false, MatingK := 50, NumGenes := 0, MutationRate := 0,
    Compatible := false, MateSelf := false, MateSibling := false,
    MateCousin := false, MateSameSex := false, Analysis := "" }

/-- Witness for `unconstrained_2x2_scenario` at a concrete oracle. -/
theorem unconstrained_2x2_scenario_witness :
    (Simulate (NewSimulation scenarioParams idRNG).1 idRNG).1.genBdrys = [2, 6, 14] :=
  (unconstrained_2x2_scenario scenarioParams idRNG idRNG rfl rfl rfl rfl rfl).2.1



/-! ## Claim C9: analysis entry checks and ancestor resolution -/

theorem famGen_getD_congr {l₁ l₂ : List Agent}
    (h : l₁.map famGen = l₂.map famGen) (j : Nat) :
    famGen (l₁.getD j defaultAgent) = famGen (l₂.getD j defaultAgent) := by
  have h₁ := List.getD_map l₁ defaultAgent famGen (n := j)
  have h₂ := List.getD_map l₂ defaultAgent famGen (n := j)
  rw [← h₁, ← h₂, h]

theorem setAncestorsLoop_congr {l₁ l₂ : List Agent}
    (h : l₁.map famGen = l₂.map famGen) :
    ∀ (fuel : Nat) (pr : List Nat × Finset Nat) (sp generation : Nat),
      setAncestorsLoop l₁ pr sp generation fuel
        = setAncestorsLoop l₂ pr sp generation fuel := by
  intro fuel
  induction fuel with
  | zero => intro pr sp g; rfl
  | succ n ih =>
    intro pr sp g
    have hfg := famGen_getD_congr h (pr.1.getD sp 0)
    have hgen : (l₁.getD (pr.1.getD sp 0) defaultAgent).generation
        = (l₂.getD (pr.1.getD sp 0) defaultAgent).generation :=
      congrArg (fun p : Nat × Nat × Nat => p.2.2) hfg
    have hmo : (l₁.getD (pr.1.getD sp 0) defaultAgent).mother
        = (l₂.getD (pr.1.getD sp 0) defaultAgent).mother :=
      congrArg (fun p : Nat × Nat × Nat => p.2.1) hfg
    have hfa : (l₁.getD (pr.1.getD sp 0) defaultAgent).father
        = (l₂.getD (pr.1.getD sp 0) defaultAgent).father :=
      congrArg (fun p : Nat × Nat × Nat => p.1) hfg
    simp only [setAncestorsLoop]
    rw [hgen, hmo, hfa, ih]

theorem setAncestors_map_famGen (l : List Agent) (id : Nat) :
    (setAncestors l id).map famGen = l.map famGen := by
  simp only [setAncestors]
  exact map_set_eq_of_proj famGen l id _ rfl

theorem setAncestors_getD_ne (l : List Agent) (id j : Nat) (hne : id ≠ j) :
    (setAncestors l id).getD j defaultAgent = l.getD j defaultAgent := by
  simp only [setAncestors]
  exact getD_set_ne_agent hne

theorem setAncestors_getD_self_congr {l₁ l₂ : List Agent}
    (h : l₁.map famGen = l₂.map famGen) (id : Nat) (hid : id < l₁.length) :
    ((setAncestors l₁ id).getD id defaultAgent).ancestorVec
        = ((setAncestors l₂ id).getD id defaultAgent).ancestorVec
    ∧ ((setAncestors l₁ id).getD id defaultAgent).ancestorSet
        = ((setAncestors l₂ id).getD id defaultAgent).ancestorSet := by
  have hlen : l₁.length = l₂.length := by
    have h2 := congrArg List.length h
    simpa using h2
  have hid₂ : id < l₂.length := hlen ▸ hid
  have hstart : (l₁.getD id defaultAgent).generation
      = (l₂.getD id defaultAgent).generation :=
    congrArg (fun p : Nat × Nat × Nat => p.2.2) (famGen_getD_congr h id)
  have key : setAncestorsLoop l₁ ([id], ∅) 0 (l₁.getD id defaultAgent).generation
        (2 * l₁.length + 2)
      = setAncestorsLoop l₂ ([id], ∅) 0 (l₂.getD id defaultAgent).generation
        (2 * l₂.length + 2) := by
    rw [hstart, hlen]
    exact setAncestorsLoop_congr h _ _ _ _
  simp only [setAncestors]
  rw [getD_set_self_agent hid, getD_set_self_agent hid₂]
  exact ⟨by rw [key], by rw [key]⟩

theorem setAncestorsRangeAux_getD_lt :
    ∀ (n : Nat) (l : List Agent) (i k : Nat), k < i →
      (setAncestorsRangeAux n l i).getD k defaultAgent = l.getD k defaultAgent := by
  intro n
  induction n with
  | zero => intro l i k _; rfl
  | succ m ih =>
    intro l i k hk
    have hstep : setAncestorsRangeAux (m + 1) l i
        = setAncestorsRangeAux m (setAncestors l i) (i + 1) := rfl
    rw [hstep, ih (setAncestors l i) (i + 1) k (by omega)]
    exact setAncestors_getD_ne l i k (by omega)

theorem setAncestorsRangeAux_resolves :
    ∀ (n : Nat) (l l0 : List Agent) (i : Nat), l.map famGen = l0.map famGen →
      (setAncestorsRangeAux n l i).map famGen = l0.map famGen
      ∧ ∀ k, i ≤ k → k < i + n → k < l0.length →
        ((setAncestorsRangeAux n l i).getD k defaultAgent).ancestorVec
            = ((setAncestors l0 k).getD k defaultAgent).ancestorVec
        ∧ ((setAncestorsRangeAux n l i).getD k defaultAgent).ancestorSet
            = ((setAncestors l0 k).getD k defaultAgent).ancestorSet := by
  intro n
  induction n with
  | zero =>
    intro l l0 i h
    exact ⟨h, fun k hk1 hk2 _ => absurd hk2 (by omega)⟩
  | succ m ih =>
    intro l l0 i h
    have hmap2 : (setAncestors l i).map famGen = l0.map famGen := by
      rw [setAncestors_map_famGen]; exact h
    obtain ⟨hm, hres⟩ := ih (setAncestors l i) l0 (i + 1) hmap2
    refine ⟨hm, ?_⟩
    intro k hk1 hk2 hk3
    by_cases hki : k = i
    · subst hki
      have hkl : k < l.length := by
        have hlen : l.length = l0.length := by
          have h2 := congrArg List.length h
          simpa using h2
        omega
      have hstep : setAncestorsRangeAux (m + 1) l k
          = setAncestorsRangeAux m (setAncestors l k) (k + 1) := rfl
      rw [hstep, setAncestorsRangeAux_getD_lt m (setAncestors l k) (k + 1) k (by omega)]
      exact setAncestors_getD_self_congr h k hkl
    · exact hres k (by omega) (by omega) hk3

/-- Claim C9.  The analysis entry point returns the no-agents error with
no records on an empty arena and the only-zero-generation error with no
records when the last agent is a founder; otherwise it runs the whole
statistics pipeline on the ancestor-resolved simulation
`setAncestorsGen s g`, in which every agent of the last generation `g`
(the index range between the two final generation boundaries) already
carries exactly the ancestor vector and ancestor set that `setAncestors`
resolves for it — so ancestors of the whole last generation are resolved
before any selected statistic is computed. -/
theorem Analysis_resolves_before_stats (s : Simulation) (g : Nat)
    (hg : (s.agents.getD (s.agents.length - 1) defaultAgent).generation = g) :
    (s.agents.length = 0 →
        Analysis s = (s, [], some "No agents in simulation"))
    ∧ (s.agents.length ≠ 0 → g = 0 →
        Analysis s = (s, [], some (toString s.id
          ++ ", analysis-err, only zero generation exists")))
    ∧ (s.agents.length ≠ 0 → g ≠ 0 →
        Analysis s = (setAncestorsGen s g, analysisStats (setAncestorsGen s g))
        ∧ ∀ k, s.genBdrys.getD (g - 1) 0 ≤ k → k < s.genBdrys.getD g 0 →
            k < s.agents.length →
            ((setAncestorsGen s g).agents.getD k defaultAgent).ancestorVec
              = ((setAncestors s.agents k).getD k defaultAgent).ancestorVec
            ∧ ((setAncestorsGen s g).agents.getD k defaultAgent).ancestorSet
              = ((setAncestors s.agents k).getD k defaultAgent).ancestorSet) := by
  refine ⟨?_, ?_, ?_⟩
  · intro h0
    simp only [Analysis]
    rw [if_pos h0]
  · intro hne h0
    subst h0
    simp only [Analysis]
    rw [hg, if_neg hne]
    simp
  · intro hne hg0
    constructor
    · simp only [Analysis]
      rw [hg, if_neg hne, if_neg hg0]
    · intro k hk1 hk2 hk3
      have hag : (setAncestorsGen s g).agents
          = setAncestorsRangeAux (s.genBdrys.getD g 0 - s.genBdrys.getD (g - 1) 0)
              s.agents (s.genBdrys.getD (g - 1) 0) := rfl
      rw [hag]
      exact (setAncestorsRangeAux_resolves _ s.agents s.agents _ rfl).2 k hk1
        (by omega) hk3

theorem Analysis_resolves_before_stats_witness :
    testSim.agents.length ≠ 0 ∧ (3 : Nat) ≠ 0
    ∧ (Analysis testSim
          = (setAncestorsGen testSim 3, analysisStats (setAncestorsGen testSim 3))
       ∧ ∀ k, testSim.genBdrys.getD 2 0 ≤ k → k < testSim.genBdrys.getD 3 0 →
          k < testSim.agents.length →
          ((setAncestorsGen testSim 3).agents.getD k defaultAgent).ancestorVec
            = ((setAncestors testSim.agents k).getD k defaultAgent).ancestorVec
          ∧ ((setAncestorsGen testSim 3).agents.getD k defaultAgent).ancestorSet
            = ((setAncestors testSim.agents k).getD k defaultAgent).ancestorSet) :=
  ⟨by decide, by decide,
    (Analysis_resolves_before_stats testSim 3 (by decide)).2.2 (by decide) (by decide)⟩

end Ancestry
